import Mathlib

/-!
Verification of the chunk-based world-streaming core of the OpenWorld server
(`ChunkGenerator.ts` and `GameWorld.ts`), shallowly embedded in Lean.

Embedding conventions:
* JavaScript numbers are modelled as exact rationals `ℚ` (all quantities the
  claims speak about are produced by integer seeds, additions, multiplications,
  divisions by constants, and `Math.floor`, which are exact here).
* The JavaScript remainder operator `%` on integers keeps the sign of the
  dividend, which is `Int.tmod`.
* `Math.sin` / `Math.cos` are opaque library functions; they are passed as
  explicit function parameters `jsSin jsCos : ℚ → ℚ` and are only used for the
  entity counts, exactly as in the source.
* The source compares `Math.sqrt(d2) < r` with `r > 0`; the embedding uses the
  equivalent square-free comparison `d2 < r ^ 2`.
* A JavaScript `Map` is modelled as an insertion-ordered association list with
  `Map.get` / `Map.has` / `Map.set` / `Map.delete` semantics; a `Set` of chunk
  keys is modelled as the duplicate-free list that built it.
* Chunk keys are built in the source as the string `"x,y"` and parsed back with
  `parseInt`; since that encoding is a bijection on integer pairs, keys are
  modelled directly as `Int × Int`.
-/

namespace OpenWorld

/-! ### Association-list model of JavaScript `Map` -/

/-- `Map.get(k)` (as an `Option`): first entry with key `k`, if any. -/
def mapGet? {κ β : Type} [DecidableEq κ] (m : List (κ × β)) (k : κ) : Option β :=
  (m.find? fun kv => decide (kv.1 = k)).map Prod.snd

/-- `Map.has(k)`. -/
def mapHas {κ β : Type} [DecidableEq κ] (m : List (κ × β)) (k : κ) : Bool :=
  (mapGet? m k).isSome

/-- `Map.set(k, v)`: overwrite in place if present, else append. -/
def mapSet {κ β : Type} [DecidableEq κ] (m : List (κ × β)) (k : κ) (v : β) :
    List (κ × β) :=
  if mapHas m k then
    m.map fun kv => if kv.1 = k then (k, v) else kv
  else m ++ [(k, v)]

/-- `Map.delete(k)`: remove every entry with key `k`. -/
def mapDelete {κ β : Type} [DecidableEq κ] (m : List (κ × β)) (k : κ) :
    List (κ × β) :=
  m.filter fun kv => decide (kv.1 ≠ k)

/-! ### SeededSequence: `createSeededRandom`

The source closure is
`state = (state * 9301 + 49297) % 233280; return state / 233280`,
with JavaScript `%` (truncated remainder, `Int.tmod`). -/

/-- One state update of the linear-congruential generator. -/
def seededRandomStep (state : Int) : Int :=
  (state * 9301 + 49297).tmod 233280

/-- The value returned after a state update: `state / 233280`. -/
def randValue (state : Int) : ℚ :=
  (state : ℚ) / 233280

/-- The internal state after `n` calls to the closure created with `seed`. -/
def seededRandomState (seed : Int) : Nat → Int
  | 0 => seed
  | n + 1 => seededRandomStep (seededRandomState seed n)

/-- The `n`-th value (0-based) produced by `createSeededRandom(seed)`. -/
def seededRandomOut (seed : Int) (n : Nat) : ℚ :=
  randValue (seededRandomState seed (n + 1))

/-! ### Entity data model (`Player.ts`) -/

/-- An `hsl(h, s%, l%)` color string, identified with its three components
(JavaScript number-to-string formatting is injective). -/
structure HslColor where
  h : ℚ
  s : ℚ
  l : ℚ
  deriving Repr, DecidableEq

structure Tree where
  id : Int
  x : ℚ
  y : ℚ
  size : ℚ
  color : HslColor
  variant : Int
  deriving Repr, DecidableEq

structure Bush where
  id : Int
  x : ℚ
  y : ℚ
  size : ℚ
  color : HslColor
  variant : Int
  deriving Repr, DecidableEq

/-- A flower; its color is `flowerColors[i]` for a computed index `i`
(`none` models the out-of-range JavaScript `undefined`). -/
structure Flower where
  id : Int
  x : ℚ
  y : ℚ
  color : Option String
  deriving Repr, DecidableEq

structure WorldChunk where
  x : Int
  y : Int
  trees : List Tree
  bushes : List Bush
  flowers : List Flower
  isLoaded : Bool
  deriving Repr, DecidableEq

/-- The `{x, y, size?}` view of an entity used by the collision helpers
(the `size || 10` default never fires: every caller passes sized entities). -/
structure Elem where
  x : ℚ
  y : ℚ
  size : ℚ
  deriving Repr, DecidableEq

def Tree.toElem (t : Tree) : Elem := ⟨t.x, t.y, t.size⟩

def Bush.toElem (b : Bush) : Elem := ⟨b.x, b.y, b.size⟩

/-- The mutable id counters of a `ChunkGenerator` instance. -/
structure IdState where
  nextTreeId : Int
  nextBushId : Int
  nextFlowerId : Int
  deriving Repr, DecidableEq

/-- Initial counters: `1000000 / 2000000 / 3000000`. -/
def initialIds : IdState := ⟨1000000, 2000000, 3000000⟩

/-- JavaScript array indexing `l[i]` (`undefined` for out-of-range). -/
def jsIndex (l : List String) (i : Int) : Option String :=
  if 0 ≤ i then l.get? i.toNat else none

namespace ChunkGenerator

/-- `checkCollisionWithExistingElements`: true iff the candidate circle of the
given `size` at `(x, y)` comes within `buffer = 10` of an existing element;
the source compares `Math.sqrt(d2) < r`, embedded as `d2 < r ^ 2`. -/
def checkCollisionWithExistingElements (x y size : ℚ) (existing : List Elem) :
    Bool :=
  existing.any fun e =>
    decide ((x + size / 2 - (e.x + e.size / 2)) ^ 2 +
        (y + size / 2 - (e.y + e.size / 2)) ^ 2 <
      (size / 2 + e.size / 2 + 10) ^ 2)

/-- The placement retry loop shared by trees and bushes: up to `fuel = 50`
attempts, each drawing an x offset then a y offset and testing for collision.
Returns the accepted position (if any) and the advanced generator state. -/
def tryPlace (chunkSize ox oy size : ℚ) (existing : List Elem) :
    Nat → Int → Option (ℚ × ℚ) × Int
  | 0, s => (none, s)
  | fuel + 1, s =>
    let s1 := seededRandomStep s
    let x := ox + (⌊randValue s1 * (chunkSize - size)⌋ : ℚ)
    let s2 := seededRandomStep s1
    let y := oy + (⌊randValue s2 * (chunkSize - size)⌋ : ℚ)
    if checkCollisionWithExistingElements x y size existing then
      tryPlace chunkSize ox oy size existing fuel s2
    else (some (x, y), s2)

/-- Tree count: `5 + Math.floor((Math.sin(seed) + 1) * 5)`. -/
def treeCount (jsSin : ℚ → ℚ) (seed : Int) : Int :=
  5 + ⌊(jsSin (seed : ℚ) + 1) * 5⌋

/-- Bush count: `8 + Math.floor((Math.cos(seed) + 1) * 7)`. -/
def bushCount (jsCos : ℚ → ℚ) (seed : Int) : Int :=
  8 + ⌊(jsCos (seed : ℚ) + 1) * 7⌋

/-- Flower count: `15 + Math.floor((Math.sin(seed * 0.1) + 1) * 10)`. -/
def flowerCount (jsSin : ℚ → ℚ) (seed : Int) : Int :=
  15 + ⌊(jsSin ((seed : ℚ) * (1 / 10)) + 1) * 10⌋

/-- The loop body of `generateTrees`: for each of `n` remaining iterations draw
size and variant, run the placement loop against the trees placed so far, and
on success draw the three color components and append the tree. -/
def generateTreesAux (chunkSize ox oy : ℚ) :
    Nat → Int → Int → List Tree → List Tree × Int
  | 0, _, tid, trees => (trees, tid)
  | n + 1, s, tid, trees =>
    let s1 := seededRandomStep s
    let size : ℚ := 80 + (⌊randValue s1 * 40⌋ : ℚ)
    let s2 := seededRandomStep s1
    let variant : Int := ⌊randValue s2 * 3⌋
    match tryPlace chunkSize ox oy size (trees.map Tree.toElem) 50 s2 with
    | (none, s3) => generateTreesAux chunkSize ox oy n s3 tid trees
    | (some (x, y), s3) =>
      let s4 := seededRandomStep s3
      let s5 := seededRandomStep s4
      let s6 := seededRandomStep s5
      let color : HslColor :=
        ⟨110 + randValue s4 * 30, 70 + randValue s5 * 10, 35 + randValue s6 * 15⟩
      generateTreesAux chunkSize ox oy n s6 (tid + 1)
        (trees ++ [{ id := tid, x := x, y := y, size := size, color := color,
                     variant := variant }])

/-- `generateTrees(chunkX, chunkY, seed)`, with the tree-id counter threaded
explicitly; returns the trees and the advanced counter. -/
def generateTrees (jsSin : ℚ → ℚ) (chunkSize : ℚ) (cx cy seed tid : Int) :
    List Tree × Int :=
  generateTreesAux chunkSize ((cx : ℚ) * chunkSize) ((cy : ℚ) * chunkSize)
    (treeCount jsSin seed).toNat seed tid []

/-- The loop body of `generateBushes`: like trees, but the collision test runs
against `existing ++ bushes-so-far` and sizes/colors use the bush formulas. -/
def generateBushesAux (chunkSize ox oy : ℚ) (existing : List Elem) :
    Nat → Int → Int → List Bush → List Bush × Int
  | 0, _, bid, bushes => (bushes, bid)
  | n + 1, s, bid, bushes =>
    let s1 := seededRandomStep s
    let size : ℚ := 40 + (⌊randValue s1 * 20⌋ : ℚ)
    let s2 := seededRandomStep s1
    let variant : Int := ⌊randValue s2 * 3⌋
    match tryPlace chunkSize ox oy size (existing ++ bushes.map Bush.toElem) 50 s2 with
    | (none, s3) => generateBushesAux chunkSize ox oy existing n s3 bid bushes
    | (some (x, y), s3) =>
      let s4 := seededRandomStep s3
      let s5 := seededRandomStep s4
      let s6 := seededRandomStep s5
      let color : HslColor :=
        ⟨100 + randValue s4 * 50, 65 + randValue s5 * 15, 30 + randValue s6 * 15⟩
      generateBushesAux chunkSize ox oy existing n s6 (bid + 1)
        (bushes ++ [{ id := bid, x := x, y := y, size := size, color := color,
                      variant := variant }])

/-- `generateBushes(chunkX, chunkY, seed, existingElements)`; the stream is
seeded with `seed + 1`. -/
def generateBushes (jsCos : ℚ → ℚ) (chunkSize : ℚ) (cx cy seed : Int)
    (existing : List Elem) (bid : Int) : List Bush × Int :=
  generateBushesAux chunkSize ((cx : ℚ) * chunkSize) ((cy : ℚ) * chunkSize)
    existing (bushCount jsCos seed).toNat (seed + 1) bid []

/-- The fixed 9-value flower palette. -/
def flowerColors : List String :=
  ["#FF5733", "#DAF7A6", "#FFC300", "#C70039", "#900C3F", "#581845",
   "#FFFFFF", "#FFC0CB", "#3D85C6"]

/-- The flower placement test: a flower at point `(x, y)` is blocked iff it is
strictly closer than `elementSize / 2` to the center of some existing
tree/bush (`Math.sqrt(d2) < r` embedded as `d2 < r ^ 2`). -/
def flowerBlocked (x y : ℚ) (existing : List Elem) : Bool :=
  existing.any fun e =>
    decide ((x - (e.x + e.size / 2)) ^ 2 + (y - (e.y + e.size / 2)) ^ 2 <
      (e.size / 2) ^ 2)

/-- The loop body of `generateFlowers`: each iteration draws x, y and a palette
index, then keeps the flower iff it is not blocked by a tree/bush. -/
def generateFlowersAux (chunkSize ox oy : ℚ) (existing : List Elem) :
    Nat → Int → Int → List Flower → List Flower × Int
  | 0, _, fid, flowers => (flowers, fid)
  | n + 1, s, fid, flowers =>
    let s1 := seededRandomStep s
    let x := ox + (⌊randValue s1 * chunkSize⌋ : ℚ)
    let s2 := seededRandomStep s1
    let y := oy + (⌊randValue s2 * chunkSize⌋ : ℚ)
    let s3 := seededRandomStep s2
    let color := jsIndex flowerColors ⌊randValue s3 * (flowerColors.length : ℚ)⌋
    if flowerBlocked x y existing then
      generateFlowersAux chunkSize ox oy existing n s3 fid flowers
    else
      generateFlowersAux chunkSize ox oy existing n s3 (fid + 1)
        (flowers ++ [{ id := fid, x := x, y := y, color := color }])

/-- `generateFlowers(chunkX, chunkY, seed, existingElements)`; the stream is
seeded with `seed + 2`. -/
def generateFlowers (jsSin : ℚ → ℚ) (chunkSize : ℚ) (cx cy seed : Int)
    (existing : List Elem) (fid : Int) : List Flower × Int :=
  generateFlowersAux chunkSize ((cx : ℚ) * chunkSize) ((cy : ℚ) * chunkSize)
    existing (flowerCount jsSin seed).toNat (seed + 2) fid []

/-- `generateChunk(chunkX, chunkY)`, with the generator's mutable id counters
threaded explicitly: trees first, then bushes avoiding trees, then flowers
avoiding trees and bushes, all from `chunkSeed = chunkX * 10000 + chunkY`. -/
def generateChunk (jsSin jsCos : ℚ → ℚ) (chunkSize : ℚ) (cx cy : Int)
    (ids : IdState) : WorldChunk × IdState :=
  let chunkSeed := cx * 10000 + cy
  let tr := generateTrees jsSin chunkSize cx cy chunkSeed ids.nextTreeId
  let bu := generateBushes jsCos chunkSize cx cy chunkSeed
    (tr.1.map Tree.toElem) ids.nextBushId
  let fl := generateFlowers jsSin chunkSize cx cy chunkSeed
    (tr.1.map Tree.toElem ++ bu.1.map Bush.toElem) ids.nextFlowerId
  ({ x := cx, y := cy, trees := tr.1, bushes := bu.1, flowers := fl.1,
     isLoaded := true },
   { nextTreeId := tr.2, nextBushId := bu.2, nextFlowerId := fl.2 })

end ChunkGenerator

/-! ### GameWorld (`GameWorld.ts`) -/

structure Position where
  x : ℚ
  y : ℚ
  deriving Repr, DecidableEq

inductive Direction
  | up
  | down
  | left
  | right
  deriving Repr, DecidableEq

structure Player where
  id : String
  username : String
  position : Position
  direction : Direction
  isMoving : Bool
  lastUpdate : ℚ
  deriving Repr, DecidableEq

/-- The mutable state of a `GameWorld` instance: player registry, the id
counters of its `ChunkGenerator`, the chunk cache, and the per-player sets of
already-delivered chunk keys. -/
structure GameWorld where
  id : String
  players : List (String × Player)
  maxPlayers : Int
  gen : IdState
  loadedChunks : List ((Int × Int) × WorldChunk)
  playerChunks : List (String × List (Int × Int))
  deriving Repr, DecidableEq

namespace GameWorld

/-- Hard-coded world bounds: `worldWidth = 5000`. -/
def worldWidth : ℚ := 5000

/-- Hard-coded world bounds: `worldHeight = 5000`. -/
def worldHeight : ℚ := 5000

/-- Hard-coded chunk size `500`. -/
def chunkSize : ℚ := 500

/-- The constructor: empty registry and caches, fresh generator counters. -/
def mkGameWorld (id : String) (maxPlayers : Int) : GameWorld :=
  { id := id, players := [], maxPlayers := maxPlayers, gen := initialIds,
    loadedChunks := [], playerChunks := [] }

/-- `getChunkKey(x, y)`: the chunk coordinate containing a world position
(the source renders it as the string `"cx,cy"`). -/
def getChunkKey (x y : ℚ) : Int × Int :=
  (⌊x / chunkSize⌋, ⌊y / chunkSize⌋)

/-- The inclusive integer range `[lo, hi]` (empty when `hi < lo`), the index
set of a JavaScript `for (let i = lo; i <= hi; i++)` loop. -/
def intRange (lo hi : Int) : List Int :=
  (List.range (hi + 1 - lo).toNat).map fun i => lo + i

/-- `getChunksForPosition(position, distance)`: every chunk coordinate in the
square of side `2 * distance + 1` around the position's chunk, skipping
coordinates that are negative or whose origin lies at/past the world bounds.
The outer loop runs over x, the inner loop over y. -/
def getChunksForPosition (position : Position) (distance : Int) :
    List (Int × Int) :=
  let centerChunkX := ⌊position.x / chunkSize⌋
  let centerChunkY := ⌊position.y / chunkSize⌋
  (intRange (centerChunkX - distance) (centerChunkX + distance)).flatMap
    fun (x : Int) =>
    (intRange (centerChunkY - distance) (centerChunkY + distance)).filterMap
      fun (y : Int) =>
        if x < 0 ∨ y < 0 ∨ worldWidth ≤ (x : ℚ) * chunkSize ∨
            worldHeight ≤ (y : ℚ) * chunkSize then
          none
        else some (x, y)

/-- `isFull()`: `players.size >= maxPlayers`. -/
def isFull (w : GameWorld) : Bool :=
  decide (w.maxPlayers ≤ (w.players.length : Int))

/-- `getPlayerCount()`. -/
def getPlayerCount (w : GameWorld) : Nat :=
  w.players.length

/-- `getOrGenerateChunk(chunkKey)`: return the cached chunk, or generate,
store and return it (advancing the generator's id counters). -/
def getOrGenerateChunk (jsSin jsCos : ℚ → ℚ) (w : GameWorld) (k : Int × Int) :
    WorldChunk × GameWorld :=
  match mapGet? w.loadedChunks k with
  | some c => (c, w)
  | none =>
    let r := ChunkGenerator.generateChunk jsSin jsCos chunkSize k.1 k.2 w.gen
    (r.1, { w with loadedChunks := mapSet w.loadedChunks k r.1, gen := r.2 })

/-- `chunkKeys.map(key => this.getOrGenerateChunk(key))`, threading the cache
left to right (also models the chunk-loading `for` loop of `addPlayer`, whose
returned chunks are discarded). -/
def getOrGenerateChunks (jsSin jsCos : ℚ → ℚ) (w : GameWorld) :
    List (Int × Int) → List WorldChunk × GameWorld
  | [] => ([], w)
  | k :: ks =>
    let r := getOrGenerateChunk jsSin jsCos w k
    let rest := getOrGenerateChunks jsSin jsCos r.2 ks
    (r.1 :: rest.1, rest.2)

/-- `addPlayer(player)`: no-op (with a logged warning) if the id exists;
otherwise register the player, store its visible chunk keys, and eagerly load
those chunks. -/
def addPlayer (jsSin jsCos : ℚ → ℚ) (w : GameWorld) (p : Player) : GameWorld :=
  if mapHas w.players p.id then w
  else
    let w1 := { w with players := mapSet w.players p.id p }
    let chunkKeys := getChunksForPosition p.position 2
    let w2 := { w1 with playerChunks := mapSet w1.playerChunks p.id chunkKeys }
    (getOrGenerateChunks jsSin jsCos w2 chunkKeys).2

/-- `updatePlayer(player)`: no-op (with a logged warning) if the id is
unknown; otherwise overwrite the stored record. -/
def updatePlayer (w : GameWorld) (p : Player) : GameWorld :=
  if mapHas w.players p.id then { w with players := mapSet w.players p.id p }
  else w

/-- `removePlayer(playerId)`: unconditionally delete the player record and its
chunk-key set. -/
def removePlayer (w : GameWorld) (playerId : String) : GameWorld :=
  { w with players := mapDelete w.players playerId,
           playerChunks := mapDelete w.playerChunks playerId }

/-- `getNewChunksForPlayer(player)`: compute the current chunk keys, subtract
the previously stored ones (empty if the id has no entry), replace the stored
set wholesale, and generate/return the chunks for the new keys. -/
def getNewChunksForPlayer (jsSin jsCos : ℚ → ℚ) (w : GameWorld) (p : Player) :
    List WorldChunk × GameWorld :=
  let currentChunkKeys := getChunksForPosition p.position 2
  let prevChunkKeys := (mapGet? w.playerChunks p.id).getD []
  let newChunkKeys := currentChunkKeys.filter fun key =>
    !(prevChunkKeys.contains key)
  let w1 := { w with playerChunks := mapSet w.playerChunks p.id currentChunkKeys }
  getOrGenerateChunks jsSin jsCos w1 newChunkKeys

/-- `getChunksNearPosition(position, distance)`. -/
def getChunksNearPosition (jsSin jsCos : ℚ → ℚ) (w : GameWorld)
    (position : Position) (distance : Int) : List WorldChunk × GameWorld :=
  getOrGenerateChunks jsSin jsCos w (getChunksForPosition position distance)

/-- `getChunkAtPosition(position)`. -/
def getChunkAtPosition (jsSin jsCos : ℚ → ℚ) (w : GameWorld)
    (position : Position) : WorldChunk × GameWorld :=
  getOrGenerateChunk jsSin jsCos w (getChunkKey position.x position.y)

end GameWorld

/-! ### Derived notions used by the claims -/

/-- Everything about a tree except its identifier. -/
def Tree.content (t : Tree) : ℚ × ℚ × ℚ × HslColor × Int :=
  (t.x, t.y, t.size, t.color, t.variant)

/-- Everything about a bush except its identifier. -/
def Bush.content (b : Bush) : ℚ × ℚ × ℚ × HslColor × Int :=
  (b.x, b.y, b.size, b.color, b.variant)

/-- Everything about a flower except its identifier. -/
def Flower.content (f : Flower) : ℚ × ℚ × Option String :=
  (f.x, f.y, f.color)

/-- Tree content with the position taken relative to the chunk origin. -/
def Tree.relContent (ox oy : ℚ) (t : Tree) : ℚ × ℚ × ℚ × HslColor × Int :=
  (t.x - ox, t.y - oy, t.size, t.color, t.variant)

/-- Bush content with the position taken relative to the chunk origin. -/
def Bush.relContent (ox oy : ℚ) (b : Bush) : ℚ × ℚ × ℚ × HslColor × Int :=
  (b.x - ox, b.y - oy, b.size, b.color, b.variant)

/-- Flower content with the position taken relative to the chunk origin. -/
def Flower.relContent (ox oy : ℚ) (f : Flower) : ℚ × ℚ × Option String :=
  (f.x - ox, f.y - oy, f.color)

def Elem.translate (dx dy : ℚ) (e : Elem) : Elem :=
  ⟨e.x + dx, e.y + dy, e.size⟩

/-- Rebuild the absolute collision view of a tree/bush from its
origin-relative content. -/
def elemOfRel (ox oy : ℚ) (e : ℚ × ℚ × ℚ × HslColor × Int) : Elem :=
  ⟨e.1 + ox, e.2.1 + oy, e.2.2.1⟩

/-- Rebuild absolute tree/bush content from origin-relative content. -/
def contentOfRel (ox oy : ℚ) (e : ℚ × ℚ × ℚ × HslColor × Int) :
    ℚ × ℚ × ℚ × HslColor × Int :=
  (e.1 + ox, e.2.1 + oy, e.2.2)

/-- Rebuild absolute flower content from origin-relative content. -/
def flowerContentOfRel (ox oy : ℚ) (e : ℚ × ℚ × Option String) :
    ℚ × ℚ × Option String :=
  (e.1 + ox, e.2.1 + oy, e.2.2)

/-- The collision invariant between two sized entities: their center distance
is at least `(size1 + size2) / 2 + 10`. Both sides of the source comparison
are nonnegative, so it is stated equivalently on squared distances. -/
def Elem.sep (a b : Elem) : Prop :=
  ((a.size + b.size) / 2 + 10) ^ 2 ≤
    (a.x + a.size / 2 - (b.x + b.size / 2)) ^ 2 +
    (a.y + a.size / 2 - (b.y + b.size / 2)) ^ 2

instance (a b : Elem) : Decidable (Elem.sep a b) := by
  unfold Elem.sep
  infer_instance

/-- `e` is separated (in the sense of `Elem.sep`) from every element of `l`. -/
def sepFromAll (e : Elem) (l : List Elem) : Bool :=
  l.all fun e2 => decide (Elem.sep e e2)

/-- Every pair of distinct elements of the list is separated. -/
def pairwiseSep : List Elem → Bool
  | [] => true
  | e :: rest => sepFromAll e rest && pairwiseSep rest

/-- The flower invariant against one blocking entity: the flower's point
position is at distance at least `size / 2` from the entity's center
(squared form of the source comparison). -/
def Flower.clearOf (f : Flower) (e : Elem) : Prop :=
  (e.size / 2) ^ 2 ≤
    (f.x - (e.x + e.size / 2)) ^ 2 + (f.y - (e.y + e.size / 2)) ^ 2

instance (f : Flower) (e : Elem) : Decidable (Flower.clearOf f e) := by
  unfold Flower.clearOf
  infer_instance

/-- Every flower of `fs` is clear of every blocking element of `l`. -/
def flowersClear (fs : List Flower) (l : List Elem) : Bool :=
  fs.all fun f => l.all fun e => decide (f.clearOf e)

/-- A concrete stand-in for the opaque `Math.sin` / `Math.cos` parameters,
used to instantiate universally quantified theorems at explicit inputs. -/
def zeroFn : ℚ → ℚ := fun _ => 0

/-- A concrete player, used to instantiate theorems at explicit inputs. -/
def samplePlayer : Player :=
  { id := "a", username := "alice", position := ⟨2500, 2500⟩,
    direction := Direction.up, isMoving := false, lastUpdate := 0 }

/-- A concrete player whose position `(-5000, -5000)` lies so far outside the
world bounds that its visible chunk-key list is empty (every candidate
coordinate is negative), keeping concrete evaluations small. -/
def farPlayerA : Player :=
  { id := "a", username := "alice", position := ⟨-5000, -5000⟩,
    direction := Direction.up, isMoving := false, lastUpdate := 0 }

/-- A second such player with a distinct id. -/
def farPlayerB : Player :=
  { id := "b", username := "bob", position := ⟨-5000, -5000⟩,
    direction := Direction.down, isMoving := false, lastUpdate := 0 }

namespace GameWorld

/-- Every cached chunk sits at the key of its own coordinates; this holds in
every reachable world state because the cache is only ever written by
`getOrGenerateChunk`. -/
def CacheCoherent (w : GameWorld) : Prop :=
  ∀ k c, mapGet? w.loadedChunks k = some c → c.x = k.1 ∧ c.y = k.2

/-- World states reachable through the public mutating `GameWorld`
operations, starting from a freshly constructed world. -/
inductive ReachableOps (jsSin jsCos : ℚ → ℚ) : GameWorld → Prop
  | init (id : String) (maxPlayers : Int) :
      ReachableOps jsSin jsCos (mkGameWorld id maxPlayers)
  | add (w : GameWorld) (p : Player) : ReachableOps jsSin jsCos w →
      ReachableOps jsSin jsCos (addPlayer jsSin jsCos w p)
  | update (w : GameWorld) (p : Player) : ReachableOps jsSin jsCos w →
      ReachableOps jsSin jsCos (updatePlayer w p)
  | remove (w : GameWorld) (pid : String) : ReachableOps jsSin jsCos w →
      ReachableOps jsSin jsCos (removePlayer w pid)
  | newChunks (w : GameWorld) (p : Player) : ReachableOps jsSin jsCos w →
      ReachableOps jsSin jsCos (getNewChunksForPlayer jsSin jsCos w p).2
  | near (w : GameWorld) (pos : Position) (d : Int) :
      ReachableOps jsSin jsCos w →
      ReachableOps jsSin jsCos (getChunksNearPosition jsSin jsCos w pos d).2
  | atPos (w : GameWorld) (pos : Position) : ReachableOps jsSin jsCos w →
      ReachableOps jsSin jsCos (getChunkAtPosition jsSin jsCos w pos).2

/-- A world holding exactly one registered player (`samplePlayer`) and
nothing else, used to instantiate theorems at explicit inputs. -/
def onePlayerWorld : GameWorld :=
  { id := "w", players := [("a", samplePlayer)], maxPlayers := 10,
    gen := initialIds, loadedChunks := [], playerChunks := [] }

/-- A world of capacity 1 that nevertheless holds two players, produced by
two plain `addPlayer` calls on a fresh world — the operations themselves
never consult `isFull`. -/
def overfullWorld : GameWorld :=
  addPlayer zeroFn zeroFn
    (addPlayer zeroFn zeroFn (mkGameWorld "w" 1) farPlayerA) farPlayerB

/-- Like `ReachableOps`, but the world is created with a nonnegative capacity
and `addPlayer` is only invoked when `isFull()` is false — the caller
protocol the specification prescribes for joins. -/
inductive GuardedReachable (jsSin jsCos : ℚ → ℚ) : GameWorld → Prop
  | init (id : String) (maxPlayers : Int) (h : 0 ≤ maxPlayers) :
      GuardedReachable jsSin jsCos (mkGameWorld id maxPlayers)
  | add (w : GameWorld) (p : Player) : GuardedReachable jsSin jsCos w →
      isFull w = false →
      GuardedReachable jsSin jsCos (addPlayer jsSin jsCos w p)
  | update (w : GameWorld) (p : Player) : GuardedReachable jsSin jsCos w →
      GuardedReachable jsSin jsCos (updatePlayer w p)
  | remove (w : GameWorld) (pid : String) : GuardedReachable jsSin jsCos w →
      GuardedReachable jsSin jsCos (removePlayer w pid)
  | newChunks (w : GameWorld) (p : Player) : GuardedReachable jsSin jsCos w →
      GuardedReachable jsSin jsCos (getNewChunksForPlayer jsSin jsCos w p).2
  | near (w : GameWorld) (pos : Position) (d : Int) :
      GuardedReachable jsSin jsCos w →
      GuardedReachable jsSin jsCos (getChunksNearPosition jsSin jsCos w pos d).2
  | atPos (w : GameWorld) (pos : Position) : GuardedReachable jsSin jsCos w →
      GuardedReachable jsSin jsCos (getChunkAtPosition jsSin jsCos w pos).2

end GameWorld

/-! ### Association-list lemmas -/

theorem mapGet?_nil {κ β : Type} [DecidableEq κ] (k : κ) :
    mapGet? ([] : List (κ × β)) k = none := rfl

theorem mapGet?_mapSet_self {κ β : Type} [DecidableEq κ]
    (m : List (κ × β)) (k : κ) (v : β) : mapGet? (mapSet m k v) k = some v := by
  unfold mapSet
  by_cases h : mapHas m k
  · rw [if_pos h]
    unfold mapHas at h
    unfold mapGet? at h ⊢
    rw [List.find?_map]
    have hfp : ((fun kv : κ × β => decide (kv.1 = k)) ∘
        fun kv : κ × β => if kv.1 = k then (k, v) else kv) =
        fun kv : κ × β => decide (kv.1 = k) := by
      funext kv
      by_cases hk : kv.1 = k <;> simp [hk]
    rw [hfp]
    rw [Option.isSome_map'] at h
    obtain ⟨kv0, hkv0⟩ := Option.isSome_iff_exists.mp h
    have hk0 : kv0.1 = k := by
      have h1 := List.find?_some hkv0
      simpa using h1
    rw [hkv0]
    simp [hk0]
  · rw [if_neg h]
    unfold mapHas at h
    rw [Option.not_isSome_iff_eq_none] at h
    unfold mapGet? at h ⊢
    rw [List.find?_append, Option.map_eq_none'.mp h]
    simp

theorem mapGet?_mapSet_ne {κ β : Type} [DecidableEq κ]
    (m : List (κ × β)) (k k' : κ) (v : β) (hne : k' ≠ k) :
    mapGet? (mapSet m k v) k' = mapGet? m k' := by
  unfold mapSet
  by_cases h : mapHas m k
  · rw [if_pos h]
    unfold mapGet?
    rw [List.find?_map]
    have hfp : ((fun kv : κ × β => decide (kv.1 = k')) ∘
        fun kv : κ × β => if kv.1 = k then (k, v) else kv) =
        fun kv : κ × β => decide (kv.1 = k') := by
      funext kv
      by_cases hk : kv.1 = k
      · simp [hk, Ne.symm hne]
      · simp [hk]
    rw [hfp]
    cases hf : List.find? (fun kv : κ × β => decide (kv.1 = k')) m with
    | none => simp
    | some kv0 =>
      have hk0 : kv0.1 = k' := by
        have h1 := List.find?_some hf
        simpa using h1
      have : kv0.1 ≠ k := by rw [hk0]; exact hne
      simp [this]
  · rw [if_neg h]
    unfold mapGet?
    rw [List.find?_append]
    have : List.find? (fun kv : κ × β => decide (kv.1 = k')) [(k, v)] = none := by
      simp [List.find?, Ne.symm hne]
    rw [this, Option.or_none]

/-- A cache write at key `k` either is read back, or reads fall through. -/
theorem mapGet?_mapSet_cases {κ β : Type} [DecidableEq κ]
    (m : List (κ × β)) (k k' : κ) (v c : β)
    (h : mapGet? (mapSet m k v) k' = some c) :
    (k' = k ∧ c = v) ∨ mapGet? m k' = some c := by
  by_cases hk : k' = k
  · subst hk
    rw [mapGet?_mapSet_self] at h
    exact Or.inl ⟨rfl, (Option.some_injective _ h).symm⟩
  · rw [mapGet?_mapSet_ne m k k' v hk] at h
    exact Or.inr h

theorem length_mapSet {κ β : Type} [DecidableEq κ]
    (m : List (κ × β)) (k : κ) (v : β) :
    (mapSet m k v).length =
      if mapHas m k then m.length else m.length + 1 := by
  unfold mapSet
  by_cases h : mapHas m k
  · rw [if_pos h, if_pos h, List.length_map]
  · rw [if_neg h, if_neg h, List.length_append, List.length_cons,
      List.length_nil]

theorem length_mapDelete_le {κ β : Type} [DecidableEq κ]
    (m : List (κ × β)) (k : κ) :
    (mapDelete m k).length ≤ m.length :=
  List.length_filter_le _ m

namespace GameWorld

theorem generateChunk_coords (jsSin jsCos : ℚ → ℚ) (cs : ℚ) (cx cy : Int)
    (ids : IdState) :
    (ChunkGenerator.generateChunk jsSin jsCos cs cx cy ids).1.x = cx ∧
    (ChunkGenerator.generateChunk jsSin jsCos cs cx cy ids).1.y = cy := by
  constructor <;> rfl

/-- `getOrGenerateChunk` only touches the cache and the id counters. -/
theorem getOrGenerateChunk_preserves (jsSin jsCos : ℚ → ℚ) (w : GameWorld)
    (k : Int × Int) :
    (getOrGenerateChunk jsSin jsCos w k).2.players = w.players ∧
    (getOrGenerateChunk jsSin jsCos w k).2.playerChunks = w.playerChunks ∧
    (getOrGenerateChunk jsSin jsCos w k).2.maxPlayers = w.maxPlayers := by
  unfold getOrGenerateChunk
  cases h : mapGet? w.loadedChunks k <;> simp [h]

/-- `getOrGenerateChunks` only touches the cache and the id counters. -/
theorem getOrGenerateChunks_preserves (jsSin jsCos : ℚ → ℚ) :
    ∀ (ks : List (Int × Int)) (w : GameWorld),
    (getOrGenerateChunks jsSin jsCos w ks).2.players = w.players ∧
    (getOrGenerateChunks jsSin jsCos w ks).2.playerChunks = w.playerChunks ∧
    (getOrGenerateChunks jsSin jsCos w ks).2.maxPlayers = w.maxPlayers := by
  intro ks
  induction ks with
  | nil => intro w; exact ⟨rfl, rfl, rfl⟩
  | cons k ks ih =>
    intro w
    have h1 := getOrGenerateChunk_preserves jsSin jsCos w k
    have h2 := ih (getOrGenerateChunk jsSin jsCos w k).2
    unfold getOrGenerateChunks
    exact ⟨h2.1.trans h1.1, h2.2.1.trans h1.2.1, h2.2.2.trans h1.2.2⟩

/-- A coherent cache returns the chunk with the requested coordinates and
stays coherent. -/
theorem getOrGenerateChunk_coherent (jsSin jsCos : ℚ → ℚ) (w : GameWorld)
    (k : Int × Int) (hw : CacheCoherent w) :
    ((getOrGenerateChunk jsSin jsCos w k).1.x = k.1 ∧
      (getOrGenerateChunk jsSin jsCos w k).1.y = k.2) ∧
    CacheCoherent (getOrGenerateChunk jsSin jsCos w k).2 := by
  unfold getOrGenerateChunk
  cases h : mapGet? w.loadedChunks k with
  | some c => exact ⟨hw k c h, by simpa using hw⟩
  | none =>
    refine ⟨⟨(generateChunk_coords jsSin jsCos chunkSize k.1 k.2 w.gen).1,
      (generateChunk_coords jsSin jsCos chunkSize k.1 k.2 w.gen).2⟩, ?_⟩
    intro k' c hc
    simp only at hc
    rcases mapGet?_mapSet_cases w.loadedChunks k k' _ c hc with ⟨hke, hv⟩ | hv
    · subst hv
      rw [hke]
      exact generateChunk_coords jsSin jsCos chunkSize k.1 k.2 w.gen
    · exact hw k' c hv

/-- On a coherent cache, fetching a list of keys returns chunks whose
coordinates are exactly those keys, and coherence is preserved. -/
theorem getOrGenerateChunks_coherent (jsSin jsCos : ℚ → ℚ) :
    ∀ (ks : List (Int × Int)) (w : GameWorld), CacheCoherent w →
    ((getOrGenerateChunks jsSin jsCos w ks).1.map fun c => (c.x, c.y)) = ks ∧
    CacheCoherent (getOrGenerateChunks jsSin jsCos w ks).2 := by
  intro ks
  induction ks with
  | nil => intro w hw; exact ⟨rfl, hw⟩
  | cons k ks ih =>
    intro w hw
    have h1 := getOrGenerateChunk_coherent jsSin jsCos w k hw
    have h2 := ih (getOrGenerateChunk jsSin jsCos w k).2 h1.2
    unfold getOrGenerateChunks
    refine ⟨?_, h2.2⟩
    simp only [List.map_cons, h2.1, h1.1.1, h1.1.2]

end GameWorld

/-! ### Claim C8: range of the seeded random values -/

theorem seededRandomState_nonneg (seed : Int) (h : 0 ≤ seed) :
    ∀ n, 0 ≤ seededRandomState seed n
  | 0 => h
  | n + 1 => by
    have ih := seededRandomState_nonneg seed h n
    unfold seededRandomState seededRandomStep
    refine Int.tmod_nonneg _ ?_
    have : 0 ≤ seededRandomState seed n * 9301 :=
      mul_nonneg ih (by norm_num)
    omega

/-- Claim C8 (amended): values of the seeded generator lie in `[0, 1)` for
every nonnegative seed; for negative seeds the JavaScript remainder keeps the
sign of the dividend and values can be negative (see the counterexample). -/
theorem C8_seededRandom_range (seed : Int) (h : 0 ≤ seed) (n : Nat) :
    0 ≤ seededRandomOut seed n ∧ seededRandomOut seed n < 1 := by
  have h0 : 0 ≤ seededRandomState seed (n + 1) :=
    seededRandomState_nonneg seed h (n + 1)
  have h1 : seededRandomState seed (n + 1) < 233280 := by
    unfold seededRandomState seededRandomStep
    exact Int.tmod_lt_of_pos _ (by norm_num)
  unfold seededRandomOut randValue
  constructor
  · apply div_nonneg
    · exact_mod_cast h0
    · norm_num
  · rw [div_lt_one (by norm_num)]
    exact_mod_cast h1

/-- Witness for C8 at seed `7`, first output. -/
theorem C8_witness : 0 ≤ seededRandomOut 7 0 ∧ seededRandomOut 7 0 < 1 :=
  C8_seededRandom_range 7 (by decide) 0

section

attribute [local semireducible] Rat.mul Rat.add Rat.sub Rat.inv

/-- Claim C8 counterexample: for the negative seed `-6` (negative chunk
seeds do arise, e.g. chunk `(-1, 0)` has seed `-10000`), the first value of
`createSeededRandom` is negative, refuting membership in `[0, 1)` for every
integer seed. -/
theorem C8_counterexample : seededRandomOut (-6) 0 < 0 := by decide

end

/-! ### Claim C6: chunk-coordinate enumeration bounds -/

namespace GameWorld

section

attribute [local semireducible] Rat.mul Rat.add Rat.sub Rat.inv

/-- Claim C6: `getChunksForPosition` never returns a negative coordinate nor
one whose chunk origin lies at or beyond the world bounds; the chunk of
position `(2500, 2500)` is `(5, 5)`; and with radius 2 that position yields
exactly the 5×5 block `(3,3) … (7,7)` (x-major order, as enumerated by the
source's nested loops). -/
theorem C6_getChunksForPosition_bounds :
    (∀ (position : Position) (distance : Int) (k : Int × Int),
        k ∈ getChunksForPosition position distance →
        0 ≤ k.1 ∧ 0 ≤ k.2 ∧ (k.1 : ℚ) * chunkSize < worldWidth ∧
          (k.2 : ℚ) * chunkSize < worldHeight) ∧
    getChunkKey 2500 2500 = (5, 5) ∧
    getChunksForPosition ⟨2500, 2500⟩ 2 =
      [(3, 3), (3, 4), (3, 5), (3, 6), (3, 7),
       (4, 3), (4, 4), (4, 5), (4, 6), (4, 7),
       (5, 3), (5, 4), (5, 5), (5, 6), (5, 7),
       (6, 3), (6, 4), (6, 5), (6, 6), (6, 7),
       (7, 3), (7, 4), (7, 5), (7, 6), (7, 7)] := by
  refine ⟨?_, by decide, by decide⟩
  intro position distance k hk
  unfold getChunksForPosition at hk
  simp only [List.mem_flatMap, List.mem_filterMap] at hk
  obtain ⟨x, _, y, _, hxy⟩ := hk
  by_cases hcond : x < 0 ∨ y < 0 ∨ worldWidth ≤ (x : ℚ) * chunkSize ∨
      worldHeight ≤ (y : ℚ) * chunkSize
  · rw [if_pos hcond] at hxy
    exact absurd hxy (by simp)
  · rw [if_neg hcond] at hxy
    push_neg at hcond
    obtain ⟨h1, h2, h3, h4⟩ := hcond
    obtain rfl : (x, y) = k := Option.some_injective _ hxy
    exact ⟨Int.not_lt.mp (by simpa using h1), Int.not_lt.mp (by simpa using h2),
      h3, h4⟩

/-- Witness for C6 at position `(2500, 2500)`, radius 2, coordinate `(3, 3)`. -/
theorem C6_witness :
    0 ≤ ((3, 3) : Int × Int).1 ∧ 0 ≤ ((3, 3) : Int × Int).2 ∧
    (((3, 3) : Int × Int).1 : ℚ) * chunkSize < worldWidth ∧
    (((3, 3) : Int × Int).2 : ℚ) * chunkSize < worldHeight :=
  C6_getChunksForPosition_bounds.1 ⟨2500, 2500⟩ 2 (3, 3) (by decide)

end

/-! ### Claim C9: silent-failure policies -/

/-- Claim C9: `addPlayer` with a registered id and `updatePlayer` with an
unregistered id leave the whole world state unchanged, and `removePlayer` is
idempotent. -/
theorem C9_silent_policies (jsSin jsCos : ℚ → ℚ) :
    (∀ (w : GameWorld) (p : Player), mapHas w.players p.id = true →
      addPlayer jsSin jsCos w p = w) ∧
    (∀ (w : GameWorld) (p : Player), mapHas w.players p.id = false →
      updatePlayer w p = w) ∧
    (∀ (w : GameWorld) (pid : String),
      removePlayer (removePlayer w pid) pid = removePlayer w pid) := by
  refine ⟨?_, ?_, ?_⟩
  · intro w p h
    unfold addPlayer
    rw [if_pos h]
  · intro w p h
    unfold updatePlayer
    rw [if_neg (by simp [h])]
  · intro w pid
    unfold removePlayer mapDelete
    simp [List.filter_filter]

/-- Witness for C9 at concrete worlds and players. -/
theorem C9_witness :
    (addPlayer zeroFn zeroFn
      { id := "w", players := [("a", samplePlayer)], maxPlayers := 10,
        gen := initialIds, loadedChunks := [], playerChunks := [] }
      samplePlayer =
      { id := "w", players := [("a", samplePlayer)], maxPlayers := 10,
        gen := initialIds, loadedChunks := [], playerChunks := [] }) ∧
    (updatePlayer (mkGameWorld "w" 10) samplePlayer = mkGameWorld "w" 10) ∧
    (removePlayer (removePlayer (mkGameWorld "w" 10) "a") "a" =
      removePlayer (mkGameWorld "w" 10) "a") :=
  ⟨(C9_silent_policies zeroFn zeroFn).1 _ samplePlayer (by decide),
   (C9_silent_policies zeroFn zeroFn).2.1 _ samplePlayer (by decide),
   (C9_silent_policies zeroFn zeroFn).2.2 _ "a"⟩

/-! ### Claim C7: `isFull` versus the player count -/

theorem guardedReachable_count_le (jsSin jsCos : ℚ → ℚ) :
    ∀ w, GuardedReachable jsSin jsCos w →
    (w.players.length : Int) ≤ w.maxPlayers := by
  intro w h
  induction h with
  | init id maxPlayers h => simpa using h
  | add w p hr hfull ih =>
    by_cases hp : mapHas w.players p.id
    · unfold addPlayer
      rw [if_pos hp]
      exact ih
    · have hpres := getOrGenerateChunks_preserves jsSin jsCos
        (getChunksForPosition p.position 2)
        { w with players := mapSet w.players p.id p,
                 playerChunks :=
                   (mapSet w.playerChunks p.id (getChunksForPosition p.position 2)) }
      unfold addPlayer
      rw [if_neg hp]
      simp only []
      rw [hpres.1, hpres.2.2]
      simp only []
      rw [length_mapSet, if_neg hp]
      unfold isFull at hfull
      simp only [decide_eq_false_iff_not, Int.not_le] at hfull
      push_cast
      omega
  | update w p hr ih =>
    unfold updatePlayer
    by_cases hp : mapHas w.players p.id
    · rw [if_pos hp]
      simp only []
      rw [length_mapSet, if_pos hp]
      exact ih
    · rw [if_neg hp]
      exact ih
  | remove w pid hr ih =>
    unfold removePlayer
    simp only []
    have hlen := length_mapDelete_le w.players pid
    have : ((mapDelete w.players pid).length : Int) ≤
        (w.players.length : Int) := by exact_mod_cast hlen
    omega
  | newChunks w p hr ih =>
    have hpres := getOrGenerateChunks_preserves jsSin jsCos
      ((getChunksForPosition p.position 2).filter fun key =>
        !(((mapGet? w.playerChunks p.id).getD []).contains key))
      { w with playerChunks :=
          (mapSet w.playerChunks p.id (getChunksForPosition p.position 2)) }
    unfold getNewChunksForPlayer
    simp only []
    rw [hpres.1, hpres.2.2]
    exact ih
  | near w pos d hr ih =>
    have hpres := getOrGenerateChunks_preserves jsSin jsCos
      (getChunksForPosition pos d) w
    unfold getChunksNearPosition
    rw [hpres.1, hpres.2.2]
    exact ih
  | atPos w pos hr ih =>
    have hpres := getOrGenerateChunk_preserves jsSin jsCos w
      (getChunkKey pos.x pos.y)
    unfold getChunkAtPosition
    rw [hpres.1, hpres.2.2]
    exact ih

/-- Claim C7 (amended): in every state `isFull()` is true exactly when the
player count is at least the configured maximum (the source comparison is
`>=`); when every `addPlayer` is guarded by `isFull()` as the specification
requires of callers, the count never exceeds the maximum and `isFull()` is
true exactly when the count equals it. -/
theorem C7_isFull_characterization (jsSin jsCos : ℚ → ℚ) (w : GameWorld)
    (h : GuardedReachable jsSin jsCos w) :
    (isFull w = true ↔ w.maxPlayers ≤ (w.players.length : Int)) ∧
    (isFull w = true ↔ (w.players.length : Int) = w.maxPlayers) := by
  have hle := guardedReachable_count_le jsSin jsCos w h
  unfold isFull
  constructor
  · exact decide_eq_true_iff
  · rw [decide_eq_true_iff]
    omega

/-- Witness for C7 at a freshly created world of capacity 1. -/
theorem C7_witness :
    (isFull (mkGameWorld "w" 1) = true ↔
      (mkGameWorld "w" 1).maxPlayers ≤
        ((mkGameWorld "w" 1).players.length : Int)) ∧
    (isFull (mkGameWorld "w" 1) = true ↔
      ((mkGameWorld "w" 1).players.length : Int) =
        (mkGameWorld "w" 1).maxPlayers) :=
  C7_isFull_characterization zeroFn zeroFn _
    (GuardedReachable.init "w" 1 (by decide))

section

attribute [local semireducible] Rat.mul Rat.add Rat.sub Rat.inv

/-- Claim C7 counterexample: `addPlayer` never consults `isFull`, so two
plain joins on a fresh capacity-1 world produce a reachable state with two
players; there `isFull()` is true although the count (2) is not equal to the
configured maximum (1). -/
theorem C7_counterexample :
    ReachableOps zeroFn zeroFn overfullWorld ∧
    isFull overfullWorld = true ∧
    overfullWorld.players.length = 2 ∧ overfullWorld.maxPlayers = 1 :=
  ⟨ReachableOps.add _ farPlayerB
      (ReachableOps.add _ farPlayerA (ReachableOps.init "w" 1)),
   by decide, by decide, by decide⟩

end

/-! ### Claims C3 and C10: per-player visibility deltas -/

/-- If the stored key set already equals the keys visible from the player's
position, the delta operation returns no chunks. -/
theorem getNewChunksForPlayer_stored (jsSin jsCos : ℚ → ℚ) (w : GameWorld)
    (p : Player)
    (h : mapGet? w.playerChunks p.id =
      some (getChunksForPosition p.position 2)) :
    (getNewChunksForPlayer jsSin jsCos w p).1 = [] := by
  have hfil : (getChunksForPosition p.position 2).filter (fun key =>
      !((getChunksForPosition p.position 2).contains key)) = [] := by
    apply List.filter_eq_nil_iff.mpr
    intro a ha
    simp [ha]
  simp only [getNewChunksForPlayer, h, Option.getD_some]
  rw [hfil]
  rfl

/-- Claim C3: for a registered player, the delta operation returns exactly
the chunks whose keys are the currently visible keys minus the stored ones,
replaces the stored key set wholesale with the current one, and a repeated
call at an unchanged position — in particular right after `addPlayer` —
returns an empty chunk list. -/
theorem C3_visibility_delta (jsSin jsCos : ℚ → ℚ) (w : GameWorld) (p : Player)
    (hp : mapHas w.players p.id = true) (hc : CacheCoherent w) :
    ((getNewChunksForPlayer jsSin jsCos w p).1.map fun c => (c.x, c.y)) =
      (getChunksForPosition p.position 2).filter (fun k =>
        !(((mapGet? w.playerChunks p.id).getD []).contains k)) ∧
    mapGet? (getNewChunksForPlayer jsSin jsCos w p).2.playerChunks p.id =
      some (getChunksForPosition p.position 2) ∧
    (getNewChunksForPlayer jsSin jsCos
      (getNewChunksForPlayer jsSin jsCos w p).2 p).1 = [] ∧
    (∀ (w0 : GameWorld) (q : Player), mapHas w0.players q.id = false →
      (getNewChunksForPlayer jsSin jsCos (addPlayer jsSin jsCos w0 q) q).1 =
        []) := by
  have hc1 : CacheCoherent
      { w with playerChunks :=
          (mapSet w.playerChunks p.id (getChunksForPosition p.position 2)) } :=
    fun k c h => hc k c h
  refine ⟨?_, ?_, ?_, ?_⟩
  · simp only [getNewChunksForPlayer]
    exact (getOrGenerateChunks_coherent jsSin jsCos _ _ hc1).1
  · simp only [getNewChunksForPlayer]
    rw [(getOrGenerateChunks_preserves jsSin jsCos _ _).2.1]
    exact mapGet?_mapSet_self _ _ _
  · apply getNewChunksForPlayer_stored
    simp only [getNewChunksForPlayer]
    rw [(getOrGenerateChunks_preserves jsSin jsCos _ _).2.1]
    exact mapGet?_mapSet_self _ _ _
  · intro w0 q hq
    apply getNewChunksForPlayer_stored
    unfold addPlayer
    rw [if_neg (by simp [hq])]
    simp only []
    rw [(getOrGenerateChunks_preserves jsSin jsCos _ _).2.1]
    exact mapGet?_mapSet_self _ _ _

/-- Witness for C3: repeating the delta call for the registered player of
`onePlayerWorld` returns no chunks. -/
theorem C3_witness :
    (getNewChunksForPlayer zeroFn zeroFn
      (getNewChunksForPlayer zeroFn zeroFn onePlayerWorld samplePlayer).2
      samplePlayer).1 = [] :=
  (C3_visibility_delta zeroFn zeroFn onePlayerWorld samplePlayer (by decide)
    (fun k c h => by simp [onePlayerWorld, mapGet?] at h)).2.2.1

/-- Claim C10: for an id with no stored visibility set (in particular, one
that is absent from the player registry), the delta operation treats the
previous set as empty, returns every chunk near the player's position, and
installs a visibility entry for that id even though no player record exists. -/
theorem C10_unregistered_delta (jsSin jsCos : ℚ → ℚ) (w : GameWorld)
    (p : Player) (hpc : mapGet? w.playerChunks p.id = none)
    (hc : CacheCoherent w) :
    ((getNewChunksForPlayer jsSin jsCos w p).1.map fun c => (c.x, c.y)) =
      getChunksForPosition p.position 2 ∧
    mapGet? (getNewChunksForPlayer jsSin jsCos w p).2.playerChunks p.id =
      some (getChunksForPosition p.position 2) ∧
    (mapHas w.players p.id = false →
      mapHas (getNewChunksForPlayer jsSin jsCos w p).2.players p.id = false ∧
      mapHas (getNewChunksForPlayer jsSin jsCos w p).2.playerChunks p.id =
        true) := by
  have hfil : (getChunksForPosition p.position 2).filter
      (fun key => !(([] : List (Int × Int)).contains key)) =
      getChunksForPosition p.position 2 := by
    simp
  refine ⟨?_, ?_, ?_⟩
  · have hc1 : CacheCoherent
        { w with playerChunks :=
            (mapSet w.playerChunks p.id (getChunksForPosition p.position 2)) } :=
      fun k c h => hc k c h
    simp only [getNewChunksForPlayer, hpc, Option.getD_none]
    rw [hfil]
    exact (getOrGenerateChunks_coherent jsSin jsCos _ _ hc1).1
  · simp only [getNewChunksForPlayer]
    rw [(getOrGenerateChunks_preserves jsSin jsCos _ _).2.1]
    exact mapGet?_mapSet_self _ _ _
  · intro hpl
    constructor
    · simp only [getNewChunksForPlayer]
      rw [(getOrGenerateChunks_preserves jsSin jsCos _ _).1]
      exact hpl
    · unfold mapHas
      simp only [getNewChunksForPlayer]
      rw [(getOrGenerateChunks_preserves jsSin jsCos _ _).2.1,
        mapGet?_mapSet_self]
      rfl

/-- Witness for C10: the delta call on a fresh world (no players at all)
installs the stored key set for the unregistered id. -/
theorem C10_witness :
    mapGet? (getNewChunksForPlayer zeroFn zeroFn (mkGameWorld "w" 10)
      samplePlayer).2.playerChunks samplePlayer.id =
      some (getChunksForPosition samplePlayer.position 2) :=
  (C10_unregistered_delta zeroFn zeroFn (mkGameWorld "w" 10) samplePlayer rfl
    (fun k c h => by simp [mkGameWorld, mapGet?] at h)).2.1

end GameWorld

/-! ### Claim C2: pairwise collision invariant of generated chunks -/

theorem Elem.sep_symm {a b : Elem} (h : Elem.sep a b) : Elem.sep b a := by
  unfold Elem.sep at h ⊢
  have h1 : ((b.size + a.size) / 2 + 10 : ℚ) ^ 2 =
      ((a.size + b.size) / 2 + 10) ^ 2 := by ring
  have h2 : (b.x + b.size / 2 - (a.x + a.size / 2)) ^ 2 +
        (b.y + b.size / 2 - (a.y + a.size / 2)) ^ 2 =
      (a.x + a.size / 2 - (b.x + b.size / 2)) ^ 2 +
        (a.y + a.size / 2 - (b.y + b.size / 2)) ^ 2 := by ring
  rw [h1, h2]
  exact h

theorem sepFromAll_eq_true_iff (e : Elem) (l : List Elem) :
    sepFromAll e l = true ↔ ∀ e2 ∈ l, Elem.sep e e2 := by
  simp [sepFromAll, List.all_eq_true]

theorem pairwiseSep_eq_true_iff :
    ∀ l : List Elem, pairwiseSep l = true ↔ List.Pairwise Elem.sep l
  | [] => by simp [pairwiseSep]
  | e :: rest => by
    simp only [pairwiseSep, Bool.and_eq_true, sepFromAll_eq_true_iff,
      pairwiseSep_eq_true_iff rest, List.pairwise_cons]

namespace ChunkGenerator

/-- A candidate accepted by the placement loop passed the collision test. -/
theorem tryPlace_some (chunkSize ox oy size : ℚ) (existing : List Elem) :
    ∀ (fuel : Nat) (s : Int) (x y : ℚ) (s3 : Int),
    tryPlace chunkSize ox oy size existing fuel s = (some (x, y), s3) →
    checkCollisionWithExistingElements x y size existing = false := by
  intro fuel
  induction fuel with
  | zero =>
    intro s x y s3 h
    simp [tryPlace] at h
  | succ n ih =>
    intro s x y s3 h
    simp only [tryPlace] at h
    split at h
    · exact ih _ x y s3 h
    · rename_i hc
      injection h with h1 h2
      injection h1 with h1
      injection h1 with hx hy
      subst hx
      subst hy
      simp only [Bool.not_eq_true] at hc
      exact hc

/-- A candidate that passed the collision test is separated from every
existing element. -/
theorem sep_of_checkCollision_eq_false {x y size : ℚ} {existing : List Elem}
    (h : checkCollisionWithExistingElements x y size existing = false) :
    ∀ e ∈ existing, Elem.sep ⟨x, y, size⟩ e := by
  intro e he
  unfold checkCollisionWithExistingElements at h
  rw [List.any_eq_false] at h
  have h2 := h e he
  simp only [decide_eq_true_eq, not_lt] at h2
  unfold Elem.sep
  have hre : ((size + e.size) / 2 + 10 : ℚ) ^ 2 =
      (size / 2 + e.size / 2 + 10) ^ 2 := by ring
  rw [hre]
  exact h2

/-- The tree loop preserves pairwise separation of the placed trees. -/
theorem generateTreesAux_pairwise (chunkSize ox oy : ℚ) :
    ∀ (n : Nat) (s tid : Int) (trees : List Tree),
    List.Pairwise Elem.sep (trees.map Tree.toElem) →
    List.Pairwise Elem.sep
      ((generateTreesAux chunkSize ox oy n s tid trees).1.map Tree.toElem) := by
  intro n
  induction n with
  | zero =>
    intro s tid trees h
    exact h
  | succ n ih =>
    intro s tid trees h
    simp only [generateTreesAux]
    rcases htp : tryPlace chunkSize ox oy
        (80 + (⌊randValue (seededRandomStep s) * 40⌋ : ℚ))
        (trees.map Tree.toElem) 50 (seededRandomStep (seededRandomStep s))
      with ⟨res, s3⟩
    cases res with
    | none => exact ih _ _ _ h
    | some xy =>
      obtain ⟨x, y⟩ := xy
      apply ih
      rw [List.map_append, List.pairwise_append]
      refine ⟨h, by simp, ?_⟩
      intro a ha b hb
      simp only [List.map_cons, List.map_nil, List.mem_singleton] at hb
      subst hb
      have hcheck := tryPlace_some chunkSize ox oy _ _ _ _ _ _ _ htp
      exact Elem.sep_symm (sep_of_checkCollision_eq_false hcheck a ha)

/-- The bush loop preserves pairwise separation of the placed bushes and
separation of every placed bush from every pre-existing element. -/
theorem generateBushesAux_inv (chunkSize ox oy : ℚ) (existing : List Elem) :
    ∀ (n : Nat) (s bid : Int) (bushes : List Bush),
    List.Pairwise Elem.sep (bushes.map Bush.toElem) →
    (∀ b ∈ bushes.map Bush.toElem, ∀ e ∈ existing, Elem.sep b e) →
    List.Pairwise Elem.sep
      ((generateBushesAux chunkSize ox oy existing n s bid bushes).1.map
        Bush.toElem) ∧
    (∀ b ∈ (generateBushesAux chunkSize ox oy existing n s bid bushes).1.map
        Bush.toElem, ∀ e ∈ existing, Elem.sep b e) := by
  intro n
  induction n with
  | zero =>
    intro s bid bushes h1 h2
    exact ⟨h1, h2⟩
  | succ n ih =>
    intro s bid bushes h1 h2
    simp only [generateBushesAux]
    rcases htp : tryPlace chunkSize ox oy
        (40 + (⌊randValue (seededRandomStep s) * 20⌋ : ℚ))
        (existing ++ bushes.map Bush.toElem) 50
        (seededRandomStep (seededRandomStep s))
      with ⟨res, s3⟩
    cases res with
    | none => exact ih _ _ _ h1 h2
    | some xy =>
      obtain ⟨x, y⟩ := xy
      have hcheck := tryPlace_some chunkSize ox oy _ _ _ _ _ _ _ htp
      have hsep := sep_of_checkCollision_eq_false hcheck
      apply ih
      · rw [List.map_append, List.pairwise_append]
        refine ⟨h1, by simp, ?_⟩
        intro a ha b hb
        simp only [List.map_cons, List.map_nil, List.mem_singleton] at hb
        subst hb
        exact Elem.sep_symm (hsep a (List.mem_append_right existing ha))
      · intro b hb e he
        rw [List.map_append] at hb
        rcases List.mem_append.mp hb with hb | hb
        · exact h2 b hb e he
        · simp only [List.map_cons, List.map_nil, List.mem_singleton] at hb
          subst hb
          exact hsep e (List.mem_append_left _ he)

/-- Claim C2: in every generated chunk, every pair of distinct trees, every
bush–tree pair, and every pair of distinct bushes is separated: the center
distance is at least `(size1 + size2) / 2 + 10` (`Elem.sep`, stated on
squared distances). -/
theorem C2_collision_invariant (jsSin jsCos : ℚ → ℚ) (chunkSize : ℚ)
    (cx cy : Int) (ids : IdState) :
    pairwiseSep
      ((generateChunk jsSin jsCos chunkSize cx cy ids).1.trees.map
        Tree.toElem) = true ∧
    (((generateChunk jsSin jsCos chunkSize cx cy ids).1.bushes.map
        Bush.toElem).all fun b =>
      sepFromAll b
        ((generateChunk jsSin jsCos chunkSize cx cy ids).1.trees.map
          Tree.toElem)) = true ∧
    pairwiseSep
      ((generateChunk jsSin jsCos chunkSize cx cy ids).1.bushes.map
        Bush.toElem) = true := by
  have htrees := generateTreesAux_pairwise chunkSize
    ((cx : ℚ) * chunkSize) ((cy : ℚ) * chunkSize)
    (treeCount jsSin (cx * 10000 + cy)).toNat (cx * 10000 + cy)
    ids.nextTreeId [] (by simp)
  have hbushes := generateBushesAux_inv chunkSize
    ((cx : ℚ) * chunkSize) ((cy : ℚ) * chunkSize)
    ((generateTrees jsSin chunkSize cx cy (cx * 10000 + cy)
      ids.nextTreeId).1.map Tree.toElem)
    (bushCount jsCos (cx * 10000 + cy)).toNat (cx * 10000 + cy + 1)
    ids.nextBushId [] (by simp) (by simp)
  refine ⟨?_, ?_, ?_⟩
  · rw [pairwiseSep_eq_true_iff]
    exact htrees
  · rw [List.all_eq_true]
    intro b hb
    rw [sepFromAll_eq_true_iff]
    intro e he
    exact hbushes.2 b hb e he
  · rw [pairwiseSep_eq_true_iff]
    exact hbushes.1

/-! ### Translation and id-independence of chunk content (for C1 and C5) -/

theorem translate_elemOfRel (ox oy dx dy : ℚ)
    (e : ℚ × ℚ × ℚ × HslColor × Int) :
    Elem.translate dx dy (elemOfRel ox oy e) =
      elemOfRel (ox + dx) (oy + dy) e := by
  show Elem.mk (e.1 + ox + dx) (e.2.1 + oy + dy) e.2.2.1 =
    Elem.mk (e.1 + (ox + dx)) (e.2.1 + (oy + dy)) e.2.2.1
  rw [add_assoc, add_assoc]

theorem map_translate_zero (l : List Elem) : l.map (Elem.translate 0 0) = l := by
  have h : ∀ e ∈ l, Elem.translate 0 0 e = e := fun e _ => by
    show Elem.mk (e.x + 0) (e.y + 0) e.size = e
    rw [add_zero, add_zero]
  rw [List.map_congr_left h]
  exact List.map_id' l

theorem treeToElem_eq_elemOfRel (ox oy : ℚ) (t : Tree) :
    t.toElem = elemOfRel ox oy (t.relContent ox oy) := by
  show Elem.mk t.x t.y t.size = Elem.mk (t.x - ox + ox) (t.y - oy + oy) t.size
  rw [sub_add_cancel, sub_add_cancel]

theorem bushToElem_eq_elemOfRel (ox oy : ℚ) (b : Bush) :
    b.toElem = elemOfRel ox oy (b.relContent ox oy) := by
  show Elem.mk b.x b.y b.size = Elem.mk (b.x - ox + ox) (b.y - oy + oy) b.size
  rw [sub_add_cancel, sub_add_cancel]

theorem map_toElem_eq_trees (ox oy : ℚ) (l : List Tree) :
    l.map Tree.toElem =
      (l.map (Tree.relContent ox oy)).map (elemOfRel ox oy) := by
  rw [List.map_map]
  exact List.map_congr_left fun t _ => treeToElem_eq_elemOfRel ox oy t

theorem map_toElem_eq_bushes (ox oy : ℚ) (l : List Bush) :
    l.map Bush.toElem =
      (l.map (Bush.relContent ox oy)).map (elemOfRel ox oy) := by
  rw [List.map_map]
  exact List.map_congr_left fun b _ => bushToElem_eq_elemOfRel ox oy b

theorem map_toElem_translate_of_rel_trees {ox oy dx dy : ℚ} {l1 l2 : List Tree}
    (h : l1.map (Tree.relContent ox oy) =
      l2.map (Tree.relContent (ox + dx) (oy + dy))) :
    l2.map Tree.toElem = (l1.map Tree.toElem).map (Elem.translate dx dy) := by
  rw [map_toElem_eq_trees (ox + dx) (oy + dy) l2, ← h,
    map_toElem_eq_trees ox oy l1]
  simp only [List.map_map]
  exact List.map_congr_left fun t _ =>
    (translate_elemOfRel ox oy dx dy (t.relContent ox oy)).symm

theorem map_toElem_translate_of_rel_bushes {ox oy dx dy : ℚ} {l1 l2 : List Bush}
    (h : l1.map (Bush.relContent ox oy) =
      l2.map (Bush.relContent (ox + dx) (oy + dy))) :
    l2.map Bush.toElem = (l1.map Bush.toElem).map (Elem.translate dx dy) := by
  rw [map_toElem_eq_bushes (ox + dx) (oy + dy) l2, ← h,
    map_toElem_eq_bushes ox oy l1]
  simp only [List.map_map]
  exact List.map_congr_left fun b _ =>
    (translate_elemOfRel ox oy dx dy (b.relContent ox oy)).symm

theorem map_content_of_rel_trees (ox oy : ℚ) {l1 l2 : List Tree}
    (h : l1.map (Tree.relContent ox oy) = l2.map (Tree.relContent ox oy)) :
    l1.map Tree.content = l2.map Tree.content := by
  have e1 : ∀ l : List Tree, l.map Tree.content =
      (l.map (Tree.relContent ox oy)).map (contentOfRel ox oy) := fun l => by
    rw [List.map_map]
    refine List.map_congr_left fun t _ => ?_
    show (t.x, t.y, t.size, t.color, t.variant) =
      (t.x - ox + ox, t.y - oy + oy, t.size, t.color, t.variant)
    rw [sub_add_cancel, sub_add_cancel]
  rw [e1, e1, h]

theorem map_content_of_rel_bushes (ox oy : ℚ) {l1 l2 : List Bush}
    (h : l1.map (Bush.relContent ox oy) = l2.map (Bush.relContent ox oy)) :
    l1.map Bush.content = l2.map Bush.content := by
  have e1 : ∀ l : List Bush, l.map Bush.content =
      (l.map (Bush.relContent ox oy)).map (contentOfRel ox oy) := fun l => by
    rw [List.map_map]
    refine List.map_congr_left fun b _ => ?_
    show (b.x, b.y, b.size, b.color, b.variant) =
      (b.x - ox + ox, b.y - oy + oy, b.size, b.color, b.variant)
    rw [sub_add_cancel, sub_add_cancel]
  rw [e1, e1, h]

theorem map_content_of_rel_flowers (ox oy : ℚ) {l1 l2 : List Flower}
    (h : l1.map (Flower.relContent ox oy) = l2.map (Flower.relContent ox oy)) :
    l1.map Flower.content = l2.map Flower.content := by
  have e1 : ∀ l : List Flower, l.map Flower.content =
      (l.map (Flower.relContent ox oy)).map (flowerContentOfRel ox oy) :=
    fun l => by
    rw [List.map_map]
    refine List.map_congr_left fun f _ => ?_
    show (f.x, f.y, f.color) = (f.x - ox + ox, f.y - oy + oy, f.color)
    rw [sub_add_cancel, sub_add_cancel]
  rw [e1, e1, h]

theorem checkCollision_translate (x y size dx dy : ℚ) (l : List Elem) :
    checkCollisionWithExistingElements (x + dx) (y + dy) size
      (l.map (Elem.translate dx dy)) =
    checkCollisionWithExistingElements x y size l := by
  unfold checkCollisionWithExistingElements
  rw [List.any_map]
  refine congrArg _ (funext fun e => ?_)
  show decide ((x + dx + size / 2 - (e.x + dx + e.size / 2)) ^ 2 +
        (y + dy + size / 2 - (e.y + dy + e.size / 2)) ^ 2 <
        (size / 2 + e.size / 2 + 10) ^ 2) =
      decide ((x + size / 2 - (e.x + e.size / 2)) ^ 2 +
        (y + size / 2 - (e.y + e.size / 2)) ^ 2 <
        (size / 2 + e.size / 2 + 10) ^ 2)
  apply decide_eq_decide.mpr
  have h1 : (x + dx + size / 2 - (e.x + dx + e.size / 2)) =
      x + size / 2 - (e.x + e.size / 2) := by ring
  have h2 : (y + dy + size / 2 - (e.y + dy + e.size / 2)) =
      y + size / 2 - (e.y + e.size / 2) := by ring
  rw [h1, h2]

theorem tryPlace_translate (chunkSize ox oy size dx dy : ℚ) (l : List Elem) :
    ∀ (fuel : Nat) (s : Int),
    tryPlace chunkSize (ox + dx) (oy + dy) size (l.map (Elem.translate dx dy))
      fuel s =
    ((tryPlace chunkSize ox oy size l fuel s).1.map fun q =>
        (q.1 + dx, q.2 + dy),
      (tryPlace chunkSize ox oy size l fuel s).2) := by
  intro fuel
  induction fuel with
  | zero =>
    intro s
    simp [tryPlace]
  | succ n ih =>
    intro s
    simp only [tryPlace]
    have hx : ox + dx +
        (⌊randValue (seededRandomStep s) * (chunkSize - size)⌋ : ℚ) =
        ox + (⌊randValue (seededRandomStep s) * (chunkSize - size)⌋ : ℚ) +
          dx := by ring
    have hy : oy + dy +
        (⌊randValue (seededRandomStep (seededRandomStep s)) *
          (chunkSize - size)⌋ : ℚ) =
        oy + (⌊randValue (seededRandomStep (seededRandomStep s)) *
          (chunkSize - size)⌋ : ℚ) + dy := by ring
    rw [hx, hy, checkCollision_translate]
    by_cases hc : checkCollisionWithExistingElements
        (ox + (⌊randValue (seededRandomStep s) * (chunkSize - size)⌋ : ℚ))
        (oy + (⌊randValue (seededRandomStep (seededRandomStep s)) *
          (chunkSize - size)⌋ : ℚ)) size l
    · rw [if_pos hc, if_pos hc]
      exact ih _
    · rw [if_neg hc, if_neg hc]
      simp

/-- The tree loop is equivariant under translating the chunk origin and
ignores the id counter, up to the origin-relative content of its output. -/
theorem generateTreesAux_rel (chunkSize ox oy dx dy : ℚ) :
    ∀ (n : Nat) (s tid1 tid2 : Int) (l1 l2 : List Tree),
    l1.map (Tree.relContent ox oy) =
      l2.map (Tree.relContent (ox + dx) (oy + dy)) →
    (generateTreesAux chunkSize ox oy n s tid1 l1).1.map
        (Tree.relContent ox oy) =
      (generateTreesAux chunkSize (ox + dx) (oy + dy) n s tid2 l2).1.map
        (Tree.relContent (ox + dx) (oy + dy)) := by
  intro n
  induction n with
  | zero =>
    intro s tid1 tid2 l1 l2 h
    exact h
  | succ n ih =>
    intro s tid1 tid2 l1 l2 h
    simp only [generateTreesAux]
    have hel := map_toElem_translate_of_rel_trees h
    rcases htp : tryPlace chunkSize ox oy
        (80 + (⌊randValue (seededRandomStep s) * 40⌋ : ℚ))
        (l1.map Tree.toElem) 50 (seededRandomStep (seededRandomStep s))
      with ⟨res, s3⟩
    have htp2 : tryPlace chunkSize (ox + dx) (oy + dy)
        (80 + (⌊randValue (seededRandomStep s) * 40⌋ : ℚ))
        (l2.map Tree.toElem) 50 (seededRandomStep (seededRandomStep s)) =
        (res.map fun q => (q.1 + dx, q.2 + dy), s3) := by
      rw [hel, tryPlace_translate, htp]
    rw [htp2]
    cases res with
    | none => exact ih _ _ _ _ _ h
    | some xy =>
      obtain ⟨x, y⟩ := xy
      show (generateTreesAux chunkSize ox oy n _ (tid1 + 1) _).1.map
          (Tree.relContent ox oy) =
        (generateTreesAux chunkSize (ox + dx) (oy + dy) n _ (tid2 + 1) _).1.map
          (Tree.relContent (ox + dx) (oy + dy))
      apply ih
      rw [List.map_append, List.map_append, h]
      congr 1
      simp only [List.map_cons, List.map_nil, List.cons.injEq, and_true]
      show (x - ox, y - oy,
          (80 + (⌊randValue (seededRandomStep s) * 40⌋ : ℚ) : ℚ), _, _) =
        (x + dx - (ox + dx), y + dy - (oy + dy), _, _, _)
      have e1 : (x - ox : ℚ) = x + dx - (ox + dx) := by ring
      have e2 : (y - oy : ℚ) = y + dy - (oy + dy) := by ring
      rw [e1, e2]

/-- The bush loop is likewise equivariant under translation (of both the
origin and the pre-existing obstacle list) and ignores the id counter. -/
theorem generateBushesAux_rel (chunkSize ox oy dx dy : ℚ)
    (ex1 ex2 : List Elem) (hex : ex2 = ex1.map (Elem.translate dx dy)) :
    ∀ (n : Nat) (s bid1 bid2 : Int) (l1 l2 : List Bush),
    l1.map (Bush.relContent ox oy) =
      l2.map (Bush.relContent (ox + dx) (oy + dy)) →
    (generateBushesAux chunkSize ox oy ex1 n s bid1 l1).1.map
        (Bush.relContent ox oy) =
      (generateBushesAux chunkSize (ox + dx) (oy + dy) ex2 n s bid2 l2).1.map
        (Bush.relContent (ox + dx) (oy + dy)) := by
  intro n
  induction n with
  | zero =>
    intro s bid1 bid2 l1 l2 h
    exact h
  | succ n ih =>
    intro s bid1 bid2 l1 l2 h
    simp only [generateBushesAux]
    have hel := map_toElem_translate_of_rel_bushes h
    rcases htp : tryPlace chunkSize ox oy
        (40 + (⌊randValue (seededRandomStep s) * 20⌋ : ℚ))
        (ex1 ++ l1.map Bush.toElem) 50 (seededRandomStep (seededRandomStep s))
      with ⟨res, s3⟩
    have htp2 : tryPlace chunkSize (ox + dx) (oy + dy)
        (40 + (⌊randValue (seededRandomStep s) * 20⌋ : ℚ))
        (ex2 ++ l2.map Bush.toElem) 50 (seededRandomStep (seededRandomStep s)) =
        (res.map fun q => (q.1 + dx, q.2 + dy), s3) := by
      rw [hex, hel, ← List.map_append, tryPlace_translate, htp]
    rw [htp2]
    cases res with
    | none => exact ih _ _ _ _ _ h
    | some xy =>
      obtain ⟨x, y⟩ := xy
      show (generateBushesAux chunkSize ox oy ex1 n _ (bid1 + 1) _).1.map
          (Bush.relContent ox oy) =
        (generateBushesAux chunkSize (ox + dx) (oy + dy) ex2 n _
          (bid2 + 1) _).1.map (Bush.relContent (ox + dx) (oy + dy))
      apply ih
      rw [List.map_append, List.map_append, h]
      congr 1
      simp only [List.map_cons, List.map_nil, List.cons.injEq, and_true]
      show (x - ox, y - oy,
          (40 + (⌊randValue (seededRandomStep s) * 20⌋ : ℚ) : ℚ), _, _) =
        (x + dx - (ox + dx), y + dy - (oy + dy), _, _, _)
      have e1 : (x - ox : ℚ) = x + dx - (ox + dx) := by ring
      have e2 : (y - oy : ℚ) = y + dy - (oy + dy) := by ring
      rw [e1, e2]

theorem flowerBlocked_translate (x y dx dy : ℚ) (l : List Elem) :
    flowerBlocked (x + dx) (y + dy) (l.map (Elem.translate dx dy)) =
    flowerBlocked x y l := by
  unfold flowerBlocked
  rw [List.any_map]
  refine congrArg _ (funext fun e => ?_)
  show decide ((x + dx - (e.x + dx + e.size / 2)) ^ 2 +
        (y + dy - (e.y + dy + e.size / 2)) ^ 2 < (e.size / 2) ^ 2) =
      decide ((x - (e.x + e.size / 2)) ^ 2 +
        (y - (e.y + e.size / 2)) ^ 2 < (e.size / 2) ^ 2)
  apply decide_eq_decide.mpr
  have h1 : (x + dx - (e.x + dx + e.size / 2)) = x - (e.x + e.size / 2) := by
    ring
  have h2 : (y + dy - (e.y + dy + e.size / 2)) = y - (e.y + e.size / 2) := by
    ring
  rw [h1, h2]

/-- The flower loop is likewise equivariant under translation and ignores
the id counter. -/
theorem generateFlowersAux_rel (chunkSize ox oy dx dy : ℚ)
    (ex1 ex2 : List Elem) (hex : ex2 = ex1.map (Elem.translate dx dy)) :
    ∀ (n : Nat) (s fid1 fid2 : Int) (l1 l2 : List Flower),
    l1.map (Flower.relContent ox oy) =
      l2.map (Flower.relContent (ox + dx) (oy + dy)) →
    (generateFlowersAux chunkSize ox oy ex1 n s fid1 l1).1.map
        (Flower.relContent ox oy) =
      (generateFlowersAux chunkSize (ox + dx) (oy + dy) ex2 n s fid2 l2).1.map
        (Flower.relContent (ox + dx) (oy + dy)) := by
  intro n
  induction n with
  | zero =>
    intro s fid1 fid2 l1 l2 h
    exact h
  | succ n ih =>
    intro s fid1 fid2 l1 l2 h
    simp only [generateFlowersAux]
    have hx : ox + dx + (⌊randValue (seededRandomStep s) * chunkSize⌋ : ℚ) =
        ox + (⌊randValue (seededRandomStep s) * chunkSize⌋ : ℚ) + dx := by
      ring
    have hy : oy + dy +
        (⌊randValue (seededRandomStep (seededRandomStep s)) * chunkSize⌋ : ℚ) =
        oy + (⌊randValue (seededRandomStep (seededRandomStep s)) *
          chunkSize⌋ : ℚ) + dy := by ring
    have hbeq : flowerBlocked
        (ox + (⌊randValue (seededRandomStep s) * chunkSize⌋ : ℚ) + dx)
        (oy + (⌊randValue (seededRandomStep (seededRandomStep s)) *
          chunkSize⌋ : ℚ) + dy) ex2 =
        flowerBlocked
          (ox + (⌊randValue (seededRandomStep s) * chunkSize⌋ : ℚ))
          (oy + (⌊randValue (seededRandomStep (seededRandomStep s)) *
            chunkSize⌋ : ℚ)) ex1 := by
      rw [hex, flowerBlocked_translate]
    rw [hx, hy, hbeq]
    by_cases hb : flowerBlocked
        (ox + (⌊randValue (seededRandomStep s) * chunkSize⌋ : ℚ))
        (oy + (⌊randValue (seededRandomStep (seededRandomStep s)) *
          chunkSize⌋ : ℚ)) ex1
    · rw [if_pos hb, if_pos hb]
      exact ih _ _ _ _ _ h
    · rw [if_neg hb, if_neg hb]
      apply ih
      rw [List.map_append, List.map_append, h]
      congr 1
      simp only [List.map_cons, List.map_nil, List.cons.injEq, and_true]
      show (ox + (⌊randValue (seededRandomStep s) * chunkSize⌋ : ℚ) - ox,
          oy + (⌊randValue (seededRandomStep (seededRandomStep s)) *
            chunkSize⌋ : ℚ) - oy, _) =
        (ox + (⌊randValue (seededRandomStep s) * chunkSize⌋ : ℚ) + dx -
            (ox + dx),
          oy + (⌊randValue (seededRandomStep (seededRandomStep s)) *
            chunkSize⌋ : ℚ) + dy - (oy + dy), _)
      have e1 : (ox + (⌊randValue (seededRandomStep s) * chunkSize⌋ : ℚ) -
          ox : ℚ) =
          ox + (⌊randValue (seededRandomStep s) * chunkSize⌋ : ℚ) + dx -
            (ox + dx) := by ring
      have e2 : (oy + (⌊randValue (seededRandomStep (seededRandomStep s)) *
          chunkSize⌋ : ℚ) - oy : ℚ) =
          oy + (⌊randValue (seededRandomStep (seededRandomStep s)) *
            chunkSize⌋ : ℚ) + dy - (oy + dy) := by ring
      rw [e1, e2]

/-- Claim C1: two calls of `generateChunk` at the same chunk coordinate,
with arbitrary (e.g. differently advanced) id-counter states, produce
identical lists of tree, bush and flower content — positions, sizes, colors
and variants — differing at most in the identifier fields. -/
theorem C1_generateChunk_deterministic (jsSin jsCos : ℚ → ℚ) (chunkSize : ℚ)
    (cx cy : Int) (ids1 ids2 : IdState) :
    (generateChunk jsSin jsCos chunkSize cx cy ids1).1.trees.map Tree.content =
      (generateChunk jsSin jsCos chunkSize cx cy ids2).1.trees.map
        Tree.content ∧
    (generateChunk jsSin jsCos chunkSize cx cy ids1).1.bushes.map
        Bush.content =
      (generateChunk jsSin jsCos chunkSize cx cy ids2).1.bushes.map
        Bush.content ∧
    (generateChunk jsSin jsCos chunkSize cx cy ids1).1.flowers.map
        Flower.content =
      (generateChunk jsSin jsCos chunkSize cx cy ids2).1.flowers.map
        Flower.content := by
  have htr := generateTreesAux_rel chunkSize ((cx : ℚ) * chunkSize)
    ((cy : ℚ) * chunkSize) 0 0 (treeCount jsSin (cx * 10000 + cy)).toNat
    (cx * 10000 + cy) ids1.nextTreeId ids2.nextTreeId [] [] (by simp)
  simp only [add_zero] at htr
  have htrc := map_content_of_rel_trees _ _ htr
  have hele : (generateTreesAux chunkSize ((cx : ℚ) * chunkSize)
        ((cy : ℚ) * chunkSize) (treeCount jsSin (cx * 10000 + cy)).toNat
        (cx * 10000 + cy) ids1.nextTreeId []).1.map Tree.toElem =
      (generateTreesAux chunkSize ((cx : ℚ) * chunkSize)
        ((cy : ℚ) * chunkSize) (treeCount jsSin (cx * 10000 + cy)).toNat
        (cx * 10000 + cy) ids2.nextTreeId []).1.map Tree.toElem := by
    rw [map_toElem_eq_trees ((cx : ℚ) * chunkSize) ((cy : ℚ) * chunkSize),
      map_toElem_eq_trees ((cx : ℚ) * chunkSize) ((cy : ℚ) * chunkSize), htr]
  have hex : (generateTreesAux chunkSize ((cx : ℚ) * chunkSize)
        ((cy : ℚ) * chunkSize) (treeCount jsSin (cx * 10000 + cy)).toNat
        (cx * 10000 + cy) ids2.nextTreeId []).1.map Tree.toElem =
      ((generateTreesAux chunkSize ((cx : ℚ) * chunkSize)
        ((cy : ℚ) * chunkSize) (treeCount jsSin (cx * 10000 + cy)).toNat
        (cx * 10000 + cy) ids1.nextTreeId []).1.map Tree.toElem).map
        (Elem.translate 0 0) := by
    rw [map_translate_zero]
    exact hele.symm
  have hbu := generateBushesAux_rel chunkSize ((cx : ℚ) * chunkSize)
    ((cy : ℚ) * chunkSize) 0 0 _ _ hex
    (bushCount jsCos (cx * 10000 + cy)).toNat (cx * 10000 + cy + 1)
    ids1.nextBushId ids2.nextBushId [] [] (by simp)
  simp only [add_zero] at hbu
  have hbuc := map_content_of_rel_bushes _ _ hbu
  have hbele : (generateBushesAux chunkSize ((cx : ℚ) * chunkSize)
        ((cy : ℚ) * chunkSize)
        ((generateTreesAux chunkSize ((cx : ℚ) * chunkSize)
          ((cy : ℚ) * chunkSize) (treeCount jsSin (cx * 10000 + cy)).toNat
          (cx * 10000 + cy) ids1.nextTreeId []).1.map Tree.toElem)
        (bushCount jsCos (cx * 10000 + cy)).toNat (cx * 10000 + cy + 1)
        ids1.nextBushId []).1.map Bush.toElem =
      (generateBushesAux chunkSize ((cx : ℚ) * chunkSize)
        ((cy : ℚ) * chunkSize)
        ((generateTreesAux chunkSize ((cx : ℚ) * chunkSize)
          ((cy : ℚ) * chunkSize) (treeCount jsSin (cx * 10000 + cy)).toNat
          (cx * 10000 + cy) ids2.nextTreeId []).1.map Tree.toElem)
        (bushCount jsCos (cx * 10000 + cy)).toNat (cx * 10000 + cy + 1)
        ids2.nextBushId []).1.map Bush.toElem := by
    rw [map_toElem_eq_bushes ((cx : ℚ) * chunkSize) ((cy : ℚ) * chunkSize),
      map_toElem_eq_bushes ((cx : ℚ) * chunkSize) ((cy : ℚ) * chunkSize), hbu]
  have hexf : (generateTreesAux chunkSize ((cx : ℚ) * chunkSize)
        ((cy : ℚ) * chunkSize) (treeCount jsSin (cx * 10000 + cy)).toNat
        (cx * 10000 + cy) ids2.nextTreeId []).1.map Tree.toElem ++
      (generateBushesAux chunkSize ((cx : ℚ) * chunkSize)
        ((cy : ℚ) * chunkSize)
        ((generateTreesAux chunkSize ((cx : ℚ) * chunkSize)
          ((cy : ℚ) * chunkSize) (treeCount jsSin (cx * 10000 + cy)).toNat
          (cx * 10000 + cy) ids2.nextTreeId []).1.map Tree.toElem)
        (bushCount jsCos (cx * 10000 + cy)).toNat (cx * 10000 + cy + 1)
        ids2.nextBushId []).1.map Bush.toElem =
      ((generateTreesAux chunkSize ((cx : ℚ) * chunkSize)
        ((cy : ℚ) * chunkSize) (treeCount jsSin (cx * 10000 + cy)).toNat
        (cx * 10000 + cy) ids1.nextTreeId []).1.map Tree.toElem ++
      (generateBushesAux chunkSize ((cx : ℚ) * chunkSize)
        ((cy : ℚ) * chunkSize)
        ((generateTreesAux chunkSize ((cx : ℚ) * chunkSize)
          ((cy : ℚ) * chunkSize) (treeCount jsSin (cx * 10000 + cy)).toNat
          (cx * 10000 + cy) ids1.nextTreeId []).1.map Tree.toElem)
        (bushCount jsCos (cx * 10000 + cy)).toNat (cx * 10000 + cy + 1)
        ids1.nextBushId []).1.map Bush.toElem).map (Elem.translate 0 0) := by
    rw [map_translate_zero, ← hbele, ← hele]
  have hfl := generateFlowersAux_rel chunkSize ((cx : ℚ) * chunkSize)
    ((cy : ℚ) * chunkSize) 0 0 _ _ hexf
    (flowerCount jsSin (cx * 10000 + cy)).toNat (cx * 10000 + cy + 2)
    ids1.nextFlowerId ids2.nextFlowerId [] [] (by simp)
  simp only [add_zero] at hfl
  have hflc := map_content_of_rel_flowers _ _ hfl
  exact ⟨htrc, hbuc, hflc⟩

/-- Claim C5 (amended): `generateChunk` derives its seed as
`chunkSeed = cx * 10000 + cy`, so distinct coordinates whose seeds coincide
(e.g. `(0, 10000)` and `(1, 0)`) produce chunks with identical sizes, colors,
variants and identical chunk-relative positions (identifiers aside); the
absolute entity positions, however, are offset by the differing chunk
origins and are not identical (see the counterexample). -/
theorem C5_seed_aliasing (jsSin jsCos : ℚ → ℚ) (chunkSize : ℚ)
    (cx1 cy1 cx2 cy2 : Int) (ids1 ids2 : IdState)
    (h : cx1 * 10000 + cy1 = cx2 * 10000 + cy2) :
    (generateChunk jsSin jsCos chunkSize cx1 cy1 ids1).1.trees.map
        (Tree.relContent ((cx1 : ℚ) * chunkSize) ((cy1 : ℚ) * chunkSize)) =
      (generateChunk jsSin jsCos chunkSize cx2 cy2 ids2).1.trees.map
        (Tree.relContent ((cx2 : ℚ) * chunkSize) ((cy2 : ℚ) * chunkSize)) ∧
    (generateChunk jsSin jsCos chunkSize cx1 cy1 ids1).1.bushes.map
        (Bush.relContent ((cx1 : ℚ) * chunkSize) ((cy1 : ℚ) * chunkSize)) =
      (generateChunk jsSin jsCos chunkSize cx2 cy2 ids2).1.bushes.map
        (Bush.relContent ((cx2 : ℚ) * chunkSize) ((cy2 : ℚ) * chunkSize)) ∧
    (generateChunk jsSin jsCos chunkSize cx1 cy1 ids1).1.flowers.map
        (Flower.relContent ((cx1 : ℚ) * chunkSize) ((cy1 : ℚ) * chunkSize)) =
      (generateChunk jsSin jsCos chunkSize cx2 cy2 ids2).1.flowers.map
        (Flower.relContent ((cx2 : ℚ) * chunkSize) ((cy2 : ℚ) * chunkSize)) := by
  have hx2 : (cx2 : ℚ) * chunkSize =
      (cx1 : ℚ) * chunkSize +
        ((cx2 : ℚ) * chunkSize - (cx1 : ℚ) * chunkSize) := by ring
  have hy2 : (cy2 : ℚ) * chunkSize =
      (cy1 : ℚ) * chunkSize +
        ((cy2 : ℚ) * chunkSize - (cy1 : ℚ) * chunkSize) := by ring
  simp only [generateChunk, generateTrees, generateBushes, generateFlowers]
  rw [← h, hx2, hy2]
  have htr := generateTreesAux_rel chunkSize ((cx1 : ℚ) * chunkSize)
    ((cy1 : ℚ) * chunkSize) ((cx2 : ℚ) * chunkSize - (cx1 : ℚ) * chunkSize)
    ((cy2 : ℚ) * chunkSize - (cy1 : ℚ) * chunkSize)
    (treeCount jsSin (cx1 * 10000 + cy1)).toNat (cx1 * 10000 + cy1)
    ids1.nextTreeId ids2.nextTreeId [] [] (by simp)
  have hel := map_toElem_translate_of_rel_trees htr
  have hbu := generateBushesAux_rel chunkSize ((cx1 : ℚ) * chunkSize)
    ((cy1 : ℚ) * chunkSize) ((cx2 : ℚ) * chunkSize - (cx1 : ℚ) * chunkSize)
    ((cy2 : ℚ) * chunkSize - (cy1 : ℚ) * chunkSize) _ _ hel
    (bushCount jsCos (cx1 * 10000 + cy1)).toNat (cx1 * 10000 + cy1 + 1)
    ids1.nextBushId ids2.nextBushId [] [] (by simp)
  have hbel := map_toElem_translate_of_rel_bushes hbu
  have hexf : (generateTreesAux chunkSize
        ((cx1 : ℚ) * chunkSize +
          ((cx2 : ℚ) * chunkSize - (cx1 : ℚ) * chunkSize))
        ((cy1 : ℚ) * chunkSize +
          ((cy2 : ℚ) * chunkSize - (cy1 : ℚ) * chunkSize))
        (treeCount jsSin (cx1 * 10000 + cy1)).toNat (cx1 * 10000 + cy1)
        ids2.nextTreeId []).1.map Tree.toElem ++
      (generateBushesAux chunkSize
        ((cx1 : ℚ) * chunkSize +
          ((cx2 : ℚ) * chunkSize - (cx1 : ℚ) * chunkSize))
        ((cy1 : ℚ) * chunkSize +
          ((cy2 : ℚ) * chunkSize - (cy1 : ℚ) * chunkSize))
        ((generateTreesAux chunkSize
          ((cx1 : ℚ) * chunkSize +
            ((cx2 : ℚ) * chunkSize - (cx1 : ℚ) * chunkSize))
          ((cy1 : ℚ) * chunkSize +
            ((cy2 : ℚ) * chunkSize - (cy1 : ℚ) * chunkSize))
          (treeCount jsSin (cx1 * 10000 + cy1)).toNat (cx1 * 10000 + cy1)
          ids2.nextTreeId []).1.map Tree.toElem)
        (bushCount jsCos (cx1 * 10000 + cy1)).toNat (cx1 * 10000 + cy1 + 1)
        ids2.nextBushId []).1.map Bush.toElem =
      ((generateTreesAux chunkSize ((cx1 : ℚ) * chunkSize)
        ((cy1 : ℚ) * chunkSize)
        (treeCount jsSin (cx1 * 10000 + cy1)).toNat (cx1 * 10000 + cy1)
        ids1.nextTreeId []).1.map Tree.toElem ++
      (generateBushesAux chunkSize ((cx1 : ℚ) * chunkSize)
        ((cy1 : ℚ) * chunkSize)
        ((generateTreesAux chunkSize ((cx1 : ℚ) * chunkSize)
          ((cy1 : ℚ) * chunkSize)
          (treeCount jsSin (cx1 * 10000 + cy1)).toNat (cx1 * 10000 + cy1)
          ids1.nextTreeId []).1.map Tree.toElem)
        (bushCount jsCos (cx1 * 10000 + cy1)).toNat (cx1 * 10000 + cy1 + 1)
        ids1.nextBushId []).1.map Bush.toElem).map
        (Elem.translate ((cx2 : ℚ) * chunkSize - (cx1 : ℚ) * chunkSize)
          ((cy2 : ℚ) * chunkSize - (cy1 : ℚ) * chunkSize)) := by
    rw [List.map_append, hbel, hel]
  have hfl := generateFlowersAux_rel chunkSize ((cx1 : ℚ) * chunkSize)
    ((cy1 : ℚ) * chunkSize) ((cx2 : ℚ) * chunkSize - (cx1 : ℚ) * chunkSize)
    ((cy2 : ℚ) * chunkSize - (cy1 : ℚ) * chunkSize) _ _ hexf
    (flowerCount jsSin (cx1 * 10000 + cy1)).toNat (cx1 * 10000 + cy1 + 2)
    ids1.nextFlowerId ids2.nextFlowerId [] [] (by simp)
  exact ⟨htr, hbu, hfl⟩

/-- Witness for C5 at the aliasing pair `(0, 10000)` and `(1, 0)`. -/
theorem C5_witness :
    (generateChunk zeroFn zeroFn 500 0 10000 initialIds).1.trees.map
        (Tree.relContent ((0 : ℚ) * 500) ((10000 : ℚ) * 500)) =
      (generateChunk zeroFn zeroFn 500 1 0 initialIds).1.trees.map
        (Tree.relContent ((1 : ℚ) * 500) ((0 : ℚ) * 500)) :=
  (C5_seed_aliasing zeroFn zeroFn 500 0 10000 1 0 initialIds initialIds
    (by decide)).1

section

attribute [local semireducible] Rat.mul Rat.add Rat.sub Rat.inv

/-- Claim C5 counterexample: the aliasing chunks `(0, 10000)` and `(1, 0)`
(same seed `10000`) do NOT have identical entity positions — the first tree
of chunk `(0, 10000)` sits at `y = 5000379` while the first tree of chunk
`(1, 0)` sits at `y = 379` (the whole chunks are offset by their origins). -/
theorem C5_counterexample :
    (generateChunk zeroFn zeroFn 500 0 10000 initialIds).1.trees.head?.map
        Tree.y ≠
      (generateChunk zeroFn zeroFn 500 1 0 initialIds).1.trees.head?.map
        Tree.y := by
  decide

end

/-! ### Claim C4: the weaker flower placement rule -/

/-- A flower position that passed the blocking test is clear of every
blocking element. -/
theorem flowerClear_of_blocked_eq_false {x y : ℚ} {ex : List Elem}
    (h : flowerBlocked x y ex = false) (fid : Int) (c : Option String) :
    ∀ e ∈ ex, Flower.clearOf ⟨fid, x, y, c⟩ e := by
  intro e he
  unfold flowerBlocked at h
  rw [List.any_eq_false] at h
  have h2 := h e he
  simp only [decide_eq_true_eq, not_lt] at h2
  unfold Flower.clearOf
  exact h2

/-- The flower loop only appends flowers that are clear of every blocking
element. -/
theorem generateFlowersAux_clear (chunkSize ox oy : ℚ) (ex : List Elem) :
    ∀ (n : Nat) (s fid : Int) (acc : List Flower),
    flowersClear acc ex = true →
    flowersClear (generateFlowersAux chunkSize ox oy ex n s fid acc).1 ex =
      true := by
  intro n
  induction n with
  | zero =>
    intro s fid acc h
    exact h
  | succ n ih =>
    intro s fid acc h
    simp only [generateFlowersAux]
    by_cases hb : flowerBlocked
        (ox + (⌊randValue (seededRandomStep s) * chunkSize⌋ : ℚ))
        (oy + (⌊randValue (seededRandomStep (seededRandomStep s)) *
          chunkSize⌋ : ℚ)) ex
    · rw [if_pos hb]
      exact ih _ _ _ h
    · rw [if_neg hb]
      apply ih
      unfold flowersClear at h ⊢
      rw [List.all_append]
      rw [h]
      simp only [List.all_cons, List.all_nil, Bool.and_true, Bool.true_and]
      rw [List.all_eq_true]
      intro e he
      simp only [decide_eq_true_eq]
      exact flowerClear_of_blocked_eq_false
        (by simpa using hb) _ _ e he

/-- The flowers appended by the loop are a suffix independent of the
accumulator: placed flowers never influence later acceptance. -/
theorem generateFlowersAux_suffix (chunkSize ox oy : ℚ) (ex : List Elem) :
    ∀ (n : Nat) (s fid : Int), ∃ t : List Flower,
    ∀ acc : List Flower,
    (generateFlowersAux chunkSize ox oy ex n s fid acc).1 = acc ++ t := by
  intro n
  induction n with
  | zero =>
    intro s fid
    exact ⟨[], fun acc => by simp [generateFlowersAux]⟩
  | succ n ih =>
    intro s fid
    by_cases hb : flowerBlocked
        (ox + (⌊randValue (seededRandomStep s) * chunkSize⌋ : ℚ))
        (oy + (⌊randValue (seededRandomStep (seededRandomStep s)) *
          chunkSize⌋ : ℚ)) ex
    · obtain ⟨t, ht⟩ :=
        ih (seededRandomStep (seededRandomStep (seededRandomStep s))) fid
      refine ⟨t, fun acc => ?_⟩
      simp only [generateFlowersAux]
      rw [if_pos hb]
      exact ht acc
    · obtain ⟨t, ht⟩ :=
        ih (seededRandomStep (seededRandomStep (seededRandomStep s))) (fid + 1)
      refine ⟨(Flower.mk fid
          (ox + (⌊randValue (seededRandomStep s) * chunkSize⌋ : ℚ))
          (oy + (⌊randValue (seededRandomStep (seededRandomStep s)) *
            chunkSize⌋ : ℚ))
          (jsIndex flowerColors
            ⌊randValue (seededRandomStep (seededRandomStep
              (seededRandomStep s))) * (flowerColors.length : ℚ)⌋)) :: t,
        fun acc => ?_⟩
      simp only [generateFlowersAux]
      rw [if_neg hb]
      rw [ht]
      simp

/-- Claim C4: every flower of a generated chunk lies at Euclidean distance at
least `size / 2` from the center of every tree and bush of that chunk (the
point-versus-center check, in squared form), and no flower–flower constraint
is enforced at all: the flower loop's output is always the accumulated
flowers followed by a suffix that does not depend on them, so the acceptance
of a flower never consults previously placed flowers. -/
theorem C4_flower_rule (jsSin jsCos : ℚ → ℚ) (chunkSize : ℚ) (cx cy : Int)
    (ids : IdState) :
    flowersClear (generateChunk jsSin jsCos chunkSize cx cy ids).1.flowers
      ((generateChunk jsSin jsCos chunkSize cx cy ids).1.trees.map
          Tree.toElem ++
        (generateChunk jsSin jsCos chunkSize cx cy ids).1.bushes.map
          Bush.toElem) = true ∧
    (∀ (cs ox oy : ℚ) (ex : List Elem) (n : Nat) (s fid : Int)
        (acc : List Flower),
      (generateFlowersAux cs ox oy ex n s fid acc).1 =
        acc ++ (generateFlowersAux cs ox oy ex n s fid []).1) := by
  constructor
  · exact generateFlowersAux_clear chunkSize ((cx : ℚ) * chunkSize)
      ((cy : ℚ) * chunkSize)
      ((generateChunk jsSin jsCos chunkSize cx cy ids).1.trees.map
          Tree.toElem ++
        (generateChunk jsSin jsCos chunkSize cx cy ids).1.bushes.map
          Bush.toElem)
      (flowerCount jsSin (cx * 10000 + cy)).toNat (cx * 10000 + cy + 2)
      ids.nextFlowerId [] rfl
  · intro cs ox oy ex n s fid acc
    obtain ⟨t, ht⟩ := generateFlowersAux_suffix cs ox oy ex n s fid
    rw [ht acc, ht []]
    simp

end ChunkGenerator

end OpenWorld
